import Mathlib

/-!
# PersistenciaJson: the task model and its JSON persistence

A shallow embedding of `src/index.js`: the enum translators, the date parser,
the `Tarea` constructor and `actualizar`, and the `TareaRepositorio` operations
`add`, `getAll`, `getByIndex`, `filterByEstado`, `searchByTitle`, `load`, `save`
and `seedDemo`, followed by theorems about them.

Conventions of the embedding.

* A JavaScript string is the list of its UTF-16 code units, so `List.length`
  is the `length` property of the source.
* A `Date` object is its time value in milliseconds, `none` standing for `NaN`
  (an "Invalid Date").
* A thrown exception is the `error` side of `Except`; a method that mutates
  `this` before throwing returns the mutated state together with the error.
* `new Date()` reads a clock; the time read is an argument of the definitions.
* The file is represented by the value `JSON.parse` yields for its text;
  `JSON.stringify` followed by `JSON.parse` is the identity on the values that
  `save` writes.
* JSON numbers are restricted to integers.
* Library routines whose result is fixed by the host (case mapping outside
  ASCII, `Date.parse`, the local-time `Date` constructor, `toISOString`,
  conversions of arrays and objects to primitives) are fields of `Builtins`.
* Two hosts serve the concrete runs: `hostBasico`, and `hostZona z`, whose date
  routines are those of ECMAScript where local time is `z` minutes ahead of
  UTC.
-/

namespace PersistenciaJson

/-! ## Strings -/

/-- A JavaScript string, as the list of its UTF-16 code units. -/
abbrev JSString := List Nat

/-- The code units of a string literal of the source text; every character of
those literals lies in the Basic Multilingual Plane, one code unit each. -/
def js (s : String) : JSString := s.toList.map Char.toNat

/-- The code units that `String.prototype.trim` strips and that `\s` matches:
the WhiteSpace and LineTerminator productions of ECMAScript. -/
def isWhiteSpace (c : Nat) : Bool :=
  c == 9 || c == 10 || c == 11 || c == 12 || c == 13 || c == 32 || c == 160
    || c == 5760 || (8192 ≤ c && c ≤ 8202) || c == 8232 || c == 8233
    || c == 8239 || c == 8287 || c == 12288 || c == 65279

/-- Strip leading white space. -/
def trimStart (s : JSString) : JSString := s.dropWhile isWhiteSpace

/-- Strip trailing white space. -/
def trimEnd (s : JSString) : JSString := (s.reverse.dropWhile isWhiteSpace).reverse

/-- The method `String.prototype.trim`. -/
def trim (s : JSString) : JSString := trimEnd (trimStart s)

/-- Whether every code unit of the string is ASCII. -/
def isAscii (s : JSString) : Bool := s.all (fun c => decide (c < 128))

/-- Upper-case mapping of one ASCII code unit. -/
def upperAscii (c : Nat) : Nat := if 97 ≤ c ∧ c ≤ 122 then c - 32 else c

/-- Lower-case mapping of one ASCII code unit. -/
def lowerAscii (c : Nat) : Nat := if 65 ≤ c ∧ c ≤ 90 then c + 32 else c

/-- The method `String.prototype.includes`: some position of `s` starts a copy
of `q`. -/
def includes (s q : JSString) : Bool :=
  match s with
  | [] => q.isEmpty
  | c :: rest => q.isPrefixOf (c :: rest) || includes rest q

/-! ## Values -/

/-- The exceptions the program can raise. The first seven are the validation
errors created with `new Error(...)` by `Tarea` and `actualizar`. -/
inductive JSError where
  /-- "Título inválido: obligatorio, 1..100 caracteres." -/
  | tituloInvalido
  /-- "Descripción inválida: hasta 500 caracteres." -/
  | descripcionInvalida
  /-- "Fecha de creación inválida para Tarea: ..." -/
  | creacionInvalida
  /-- "Fecha de última edición inválida para Tarea: ..." -/
  | ultimaEdicionInvalida
  /-- "Estado inválido. Use P/E/T/C o su nombre." -/
  | estadoInvalido
  /-- "Dificultad inválida. Use 1/2/3 o F/M/D." -/
  | dificultadInvalida
  /-- "Fecha de vencimiento inválida." -/
  | vencimientoInvalido
  /-- "El archivo JSON no contiene un array de tareas." -/
  | noEsArray
  /-- A `TypeError` raised by the runtime (property of `null`, call of a
  non-function, failed conversion to a primitive). -/
  | typeError
  /-- The `SyntaxError` of `JSON.parse`. -/
  | jsonInvalido
  /-- A failure of `fs.readFile` other than `ENOENT`. -/
  | lecturaFallida
  /-- The `RangeError` of `toISOString` on an invalid `Date`. -/
  | rangeError
  deriving DecidableEq, Repr

/-- The validation errors: the ones `Tarea` and `actualizar` throw themselves. -/
def JSError.esValidacion : JSError → Bool
  | .tituloInvalido | .descripcionInvalida | .creacionInvalida
  | .ultimaEdicionInvalida | .estadoInvalido | .dificultadInvalida
  | .vencimientoInvalido => true
  | _ => false

/-- A `Date` object: its time value, `none` for `NaN`. -/
abbrev JSDate := Option Int

/-- The values the program handles: what `JSON.parse` produces (`null`,
booleans, numbers, strings, arrays, objects), `undefined` for an absent
property, and `Date` objects. -/
inductive JSValue where
  | undefined
  | null
  | bool (b : Bool)
  | num (n : Int)
  | str (s : JSString)
  | date (t : JSDate)
  | arr (xs : List JSValue)
  | obj (kvs : List (JSString × JSValue))

/-- Truthiness (`ToBoolean`): `undefined`, `null`, `false`, `0` and `""` are
falsy, every other value (every object included) is truthy. -/
def JSValue.truthy : JSValue → Bool
  | .undefined => false
  | .null => false
  | .bool b => b
  | .num n => n != 0
  | .str s => !s.isEmpty
  | .date _ => true
  | .arr _ => true
  | .obj _ => true

/-- Reading one of the task keys (`titulo`, `descripcion`, `estado`,
`vencimiento`, `dificultad`, `creacion`, `ultimaEdicion`) from a value:
a `TypeError` on `null` and `undefined`, the own property of an object,
and `undefined` on every other value, no prototype defining those keys. -/
def JSValue.prop (v : JSValue) (k : JSString) : Except JSError JSValue :=
  match v with
  | .undefined => .error .typeError
  | .null => .error .typeError
  | .obj kvs => .ok ((kvs.lookup k).getD .undefined)
  | _ => .ok .undefined

/-- The routines of the host that the program calls and whose result the
program text does not determine. -/
structure Builtins where
  /-- The method `toUpperCase` on a string with a non-ASCII code unit. -/
  toUpperCaseExt : JSString → JSString
  /-- The method `toLowerCase` on a string with a non-ASCII code unit. -/
  toLowerCaseExt : JSString → JSString
  /-- The time value of `new Date(s)` for a string `s` (`Date.parse`). -/
  dateParse : JSString → JSDate
  /-- The time value of `new Date(year, month, day, hours, minutes)`, local
  time, `month` counted from 0. -/
  dateLocal : Int → Int → Int → Int → Int → JSDate
  /-- The time value of `new Date(v)` for an array or object `v`, or the
  `TypeError` of its conversion to a primitive. -/
  dateOfObject : JSValue → Except JSError JSDate
  /-- The method `toISOString` of a valid `Date`. -/
  toISOString : Int → JSString
  /-- The integer `Number(s)` is, for a string `s` that is not a plain decimal
  numeral; `none` when `Number(s)` is not an integer. -/
  numberOfString : JSString → Option Int
  /-- The integer `Number(v)` is, for an array or object `v` (`none` when it
  is not an integer), or the `TypeError` of its conversion to a primitive. -/
  numberOfObject : JSValue → Except JSError (Option Int)

/-- The method `String.prototype.toUpperCase`. -/
def toUpperCase (B : Builtins) (s : JSString) : JSString :=
  if isAscii s then s.map upperAscii else B.toUpperCaseExt s

/-- The method `String.prototype.toLowerCase`. -/
def toLowerCase (B : Builtins) (s : JSString) : JSString :=
  if isAscii s then s.map lowerAscii else B.toLowerCaseExt s

/-- The operation `TimeClip`: a time value beyond 8.64e15 ms is `NaN`. -/
def timeClip (n : Int) : JSDate :=
  if n.natAbs ≤ 8640000000000000 then some n else none

/-- The constructor call `new Date(v)` with one argument. -/
def newDate (B : Builtins) : JSValue → Except JSError JSDate
  | .undefined => .ok none
  | .null => .ok (some 0)
  | .bool b => .ok (some (if b then 1 else 0))
  | .num n => .ok (timeClip n)
  | .str s => .ok (B.dateParse s)
  | .date t => .ok t
  | .arr xs => B.dateOfObject (.arr xs)
  | .obj kvs => B.dateOfObject (.obj kvs)

/-! ## Enums and their translators -/

/-- The frozen object `Estado`: the four states, each with its one-letter
code. -/
inductive Estado where
  | PENDIENTE
  | EN_CURSO
  | TERMINADA
  | CANCELADA
  deriving DecidableEq, Repr

/-- The `code` property of a state. -/
def Estado.code : Estado → JSString
  | .PENDIENTE => js "P"
  | .EN_CURSO => js "E"
  | .TERMINADA => js "T"
  | .CANCELADA => js "C"

/-- The frozen object `Dificultad`: the three difficulties, each with its
numeric code. -/
inductive Dificultad where
  | FACIL
  | MEDIO
  | DIFICIL
  deriving DecidableEq, Repr

/-- The `code` property of a difficulty. -/
def Dificultad.code : Dificultad → Int
  | .FACIL => 1
  | Dificultad.MEDIO => 2
  | .DIFICIL => 3

/-- The function `EstadoDesdeEntrada` on a string: `none` is its `null`. -/
def EstadoDesdeEntrada (B : Builtins) (value : JSString) : Option Estado :=
  if value.isEmpty then none
  else
    let v := toUpperCase B (trim value)
    if v = js "P" ∨ v = js "PENDIENTE" then some .PENDIENTE
    else if v = js "E" ∨ v = js "EN CURSO" ∨ v = js "EN_CURSO" then some .EN_CURSO
    else if v = js "T" ∨ v = js "TERMINADA" then some .TERMINADA
    else if v = js "C" ∨ v = js "CANCELADA" then some .CANCELADA
    else none

/-- The function `DificultadDesdeEntrada` on a string (`toString` is the
identity there): `none` is its `null`. -/
def DificultadDesdeEntrada (B : Builtins) (value : JSString) : Option Dificultad :=
  if value.isEmpty then none
  else
    let v := toUpperCase B (trim value)
    if v = js "1" ∨ v = js "F" ∨ v = js "FACIL" ∨ v = js "FÁCIL" then some .FACIL
    else if v = js "2" ∨ v = js "M" ∨ v = js "MEDIO" then some Dificultad.MEDIO
    else if v = js "3" ∨ v = js "D" ∨ v = js "DIFICIL" ∨ v = js "DIFÍCIL" then some .DIFICIL
    else none

/-! ## The date parser -/

/-- The class `\d` of the regular expressions of `parseFecha`. -/
def isDigit (c : Nat) : Bool := 48 ≤ c && c ≤ 57

/-- Whether position `i` of `s` holds a decimal digit. -/
def digitAt (s : JSString) (i : Nat) : Bool :=
  match s.get? i with
  | some c => isDigit c
  | none => false

/-- Whether position `i` of `s` holds the code unit `c`. -/
def unitAt (s : JSString) (i c : Nat) : Bool := s.get? i == some c

/-- The pattern `^\d{4}-\d{2}-\d{2}(?:[ T]\d{2}:\d{2})?$`. -/
def matchISO (s : JSString) : Bool :=
  let fecha := digitAt s 0 && digitAt s 1 && digitAt s 2 && digitAt s 3
    && unitAt s 4 45 && digitAt s 5 && digitAt s 6 && unitAt s 7 45
    && digitAt s 8 && digitAt s 9
  let hora := (unitAt s 10 32 || unitAt s 10 84) && digitAt s 11 && digitAt s 12
    && unitAt s 13 58 && digitAt s 14 && digitAt s 15
  fecha && (s.length == 10 || (s.length == 16 && hora))

/-- The call `s.replace(" ", "T")`: the first space becomes a `T`. -/
def replaceSpaceByT : JSString → JSString
  | [] => []
  | c :: rest => if c = 32 then 84 :: rest else c :: replaceSpaceByT rest

/-- The call `parseInt(x, 10)` on a string of decimal digits. -/
def parseIntDigits (s : JSString) : Int :=
  Int.ofNat (s.foldl (fun acc c => 10 * acc + (c - 48)) 0)

/-- The groups of a match of `^(\d{2})\/(\d{2})\/(\d{4})(?:\s+(\d{2}):(\d{2}))?$`:
day, month, year and, when the time part is there, hours and minutes. -/
def matchDMY (s : JSString) : Option (JSString × JSString × JSString × Option (JSString × JSString)) :=
  let fecha := digitAt s 0 && digitAt s 1 && unitAt s 2 47 && digitAt s 3
    && digitAt s 4 && unitAt s 5 47 && digitAt s 6 && digitAt s 7
    && digitAt s 8 && digitAt s 9
  if fecha then
    let dia := s.take 2
    let mes := (s.drop 3).take 2
    let anio := (s.drop 6).take 4
    let resto := s.drop 10
    if resto.isEmpty then some (dia, mes, anio, none)
    else
      let hora := resto.dropWhile isWhiteSpace
      if hora.length < resto.length && hora.length == 5 && digitAt hora 0
          && digitAt hora 1 && unitAt hora 2 58 && digitAt hora 3 && digitAt hora 4 then
        some (dia, mes, anio, some (hora.take 2, (hora.drop 3).take 2))
      else none
  else none

/-- The function `parseFecha` on a string: a valid time value, or `none` for
its `null`. -/
def parseFecha (B : Builtins) (input : JSString) : Option Int :=
  if input.isEmpty then none
  else
    let s := trim input
    let iso : Option Int := if matchISO s then B.dateParse (replaceSpaceByT s) else none
    match iso with
    | some d => some d
    | none =>
      let dmy : Option Int :=
        match matchDMY s with
        | some (dia, mes, anio, hora) =>
          let day := parseIntDigits dia
          let month := parseIntDigits mes - 1
          let year := parseIntDigits anio
          let hours := match hora with
            | some (h, _) => parseIntDigits h
            | none => 0
          let minutes := match hora with
            | some (_, m) => parseIntDigits m
            | none => 0
          B.dateLocal year month day hours minutes
        | none => none
      match dmy with
      | some d => some d
      | none => B.dateParse s

/-! ## Tarea -/

/-- A task object: the fields the constructor `Tarea` assigns. -/
structure Tarea where
  titulo : JSString
  /-- The description, `none` for `null`. -/
  descripcion : Option JSString
  estado : Estado
  dificultad : Dificultad
  creacion : JSDate
  ultimaEdicion : JSDate
  /-- The due date, `none` for `null`. -/
  vencimiento : Option JSDate
  deriving DecidableEq, Repr

/-- The argument object of the constructor `Tarea`. `estado` and `dificultad`
are enum objects, `none` when the property is `undefined` or `null`; the other
properties are arbitrary values, `undefined` when absent. -/
structure TareaParams where
  titulo : JSValue := .undefined
  descripcion : JSValue := .undefined
  estado : Option Estado := none
  vencimiento : JSValue := .undefined
  dificultad : Option Dificultad := none
  creacion : JSValue := .undefined
  ultimaEdicion : JSValue := .undefined

/-- The first test of the constructor: the trimmed title when `titulo` is a
non-empty string whose trimmed length is in 1..100. -/
def tituloValidado : JSValue → Except JSError JSString
  | .str titulo =>
    if titulo.isEmpty ∨ (trim titulo).length = 0 ∨ (trim titulo).length > 100 then
      .error .tituloInvalido
    else .ok (trim titulo)
  | _ => .error .tituloInvalido

/-- The second test of the constructor and the assignment of
`this.descripcion`: `undefined` and `null` pass, a string passes when its
length is at most 500, anything else throws; the field is the trimmed string
when that is not empty, `null` otherwise. -/
def descripcionValidada : JSValue → Except JSError (Option JSString)
  | .undefined => .ok none
  | .null => .ok none
  | .str d =>
    if d.length > 500 then .error .descripcionInvalida
    else if !d.isEmpty ∧ (trim d).length > 0 then .ok (some (trim d))
    else .ok none
  | _ => .error .descripcionInvalida

/-- The assignment of `this.creacion`: `new Date(creacion)` when `creacion`
is truthy, the clock otherwise. -/
def fechaCreacion (B : Builtins) (ahora : Int) (creacion : JSValue) : Except JSError JSDate :=
  if creacion.truthy then newDate B creacion else .ok (some ahora)

/-- The assignment of `this.ultimaEdicion`: `new Date(ultimaEdicion)` when
`ultimaEdicion` is truthy, a copy of `this.creacion` otherwise. -/
def fechaUltimaEdicion (B : Builtins) (creacion : JSDate) (ultimaEdicion : JSValue) :
    Except JSError JSDate :=
  if ultimaEdicion.truthy then newDate B ultimaEdicion else .ok creacion

/-- The assignment of `this.vencimiento`: `new Date(vencimiento)` when
`vencimiento` is truthy and that date is valid, `null` otherwise. -/
def fechaVencimiento (B : Builtins) (vencimiento : JSValue) : Except JSError (Option JSDate) :=
  if vencimiento.truthy then
    match newDate B vencimiento with
    | .ok d => .ok (if d.isSome then some d else none)
    | .error e => .error e
  else .ok none

/-- The constructor `Tarea` called with `new` at clock reading `ahora`. -/
def Tarea.nueva (B : Builtins) (ahora : Int) (p : TareaParams) : Except JSError Tarea := do
  let titulo ← tituloValidado p.titulo
  let descripcion ← descripcionValidada p.descripcion
  let estado := p.estado.getD .PENDIENTE
  let dificultad := p.dificultad.getD .FACIL
  let creacion ← fechaCreacion B ahora p.creacion
  let ultimaEdicion ← fechaUltimaEdicion B creacion p.ultimaEdicion
  let vencimiento ← fechaVencimiento B p.vencimiento
  if creacion.isNone then throw .creacionInvalida
  if ultimaEdicion.isNone then throw .ultimaEdicionInvalida
  pure { titulo, descripcion, estado, dificultad, creacion, ultimaEdicion, vencimiento }

/-- The argument object of `actualizar`: each property is a string read from
the console, `none` when it is `undefined`. -/
structure Cambios where
  descripcion : Option JSString := none
  estado : Option JSString := none
  dificultad : Option JSString := none
  vencimiento : Option JSString := none

/-- The first block of `actualizar`: the description. -/
def actualizarDescripcion (d : Option JSString) (t : Tarea) : Except JSError Tarea :=
  match d with
  | none => .ok t
  | some descripcion =>
    if descripcion = js "" then .ok t
    else if descripcion = js " " then .ok { t with descripcion := none }
    else if descripcion.length > 500 then .error .descripcionInvalida
    else .ok { t with descripcion := some (trim descripcion) }

/-- The second block of `actualizar`: the state. -/
def actualizarEstado (B : Builtins) (e : Option JSString) (t : Tarea) : Except JSError Tarea :=
  match e with
  | none => .ok t
  | some estado =>
    if estado = js "" then .ok t
    else
      match EstadoDesdeEntrada B estado with
      | none => .error .estadoInvalido
      | some e => .ok { t with estado := e }

/-- The third block of `actualizar`: the difficulty. -/
def actualizarDificultad (B : Builtins) (d : Option JSString) (t : Tarea) : Except JSError Tarea :=
  match d with
  | none => .ok t
  | some dificultad =>
    if dificultad = js "" then .ok t
    else
      match DificultadDesdeEntrada B dificultad with
      | none => .error .dificultadInvalida
      | some d => .ok { t with dificultad := d }

/-- The fourth block of `actualizar`: the due date. -/
def actualizarVencimiento (B : Builtins) (v : Option JSString) (t : Tarea) : Except JSError Tarea :=
  match v with
  | none => .ok t
  | some vencimiento =>
    if vencimiento = js "" then .ok t
    else if vencimiento = js " " then .ok { t with vencimiento := none }
    else
      match parseFecha B vencimiento with
      | none => .error .vencimientoInvalido
      | some fecha => .ok { t with vencimiento := some (some fecha) }

/-- The method `Tarea.prototype.actualizar` called at clock reading `ahora`:
the four blocks run in order on the same object, each assigning its field
before the next is examined, and `ultimaEdicion` is assigned last. The result
is the state of the object when the call ends together with the exception it
threw, `none` when it returned. -/
def Tarea.actualizar (B : Builtins) (ahora : Int) (c : Cambios) (t : Tarea) :
    Tarea × Option JSError :=
  match actualizarDescripcion c.descripcion t with
  | .error e => (t, some e)
  | .ok t1 =>
    match actualizarEstado B c.estado t1 with
    | .error e => (t1, some e)
    | .ok t2 =>
      match actualizarDificultad B c.dificultad t2 with
      | .error e => (t2, some e)
      | .ok t3 =>
        match actualizarVencimiento B c.vencimiento t3 with
        | .error e => (t3, some e)
        | .ok t4 => ({ t4 with ultimaEdicion := some ahora }, none)

/-! ## TareaRepositorio -/

/-- The object `TareaRepositorio`: its array `tareas` (`filePath` is a
constant). -/
structure TareaRepositorio where
  tareas : List Tarea
  deriving DecidableEq, Repr

/-- The constructor `TareaRepositorio`: an empty array. -/
def TareaRepositorio.nuevo : TareaRepositorio := { tareas := [] }

/-- The method `add`: `push` at the end of the array. -/
def TareaRepositorio.add (repo : TareaRepositorio) (tarea : Tarea) : TareaRepositorio :=
  { tareas := repo.tareas ++ [tarea] }

/-- The method `getAll`: a copy of the array. -/
def TareaRepositorio.getAll (repo : TareaRepositorio) : List Tarea := repo.tareas

/-- The method `getByIndex`: `none` is its `null`. -/
def TareaRepositorio.getByIndex (repo : TareaRepositorio) (index : Int) : Option Tarea :=
  if index < 0 ∨ index ≥ repo.tareas.length then none
  else repo.tareas.get? index.toNat

/-- The method `filterByEstado`. -/
def TareaRepositorio.filterByEstado (repo : TareaRepositorio) (estado : Estado) : List Tarea :=
  repo.tareas.filter (fun t => decide (t.estado = estado))

/-- The method `searchByTitle`. -/
def TareaRepositorio.searchByTitle (B : Builtins) (repo : TareaRepositorio)
    (substr : JSString) : List Tarea :=
  let q := toLowerCase B (trim substr)
  repo.tareas.filter (fun t => includes (toLowerCase B t.titulo) q)

/-- The conversion `Number(s)` of a string, as far as the program observes
it (the integer it is, `none` when it is not an integer): white space is
stripped, the empty string is 0, a run of at most 15 decimal digits is its
value, and any other string is left to the host. -/
def stringToNumber (B : Builtins) (s : JSString) : Option Int :=
  let t := trim s
  if t.isEmpty then some 0
  else if t.all isDigit && t.length ≤ 15 then some (parseIntDigits t)
  else B.numberOfString s

/-- The conversion `Number(v)`, as far as the program observes it: the integer
it is, `none` when it is `NaN` or not an integer. -/
def toNumber (B : Builtins) : JSValue → Except JSError (Option Int)
  | .undefined => .ok none
  | .null => .ok (some 0)
  | .bool b => .ok (some (if b then 1 else 0))
  | .num n => .ok (some n)
  | .str s => .ok (stringToNumber B s)
  | .date t => .ok t
  | .arr xs => B.numberOfObject (.arr xs)
  | .obj kvs => B.numberOfObject (.obj kvs)

/-- The local function `mapEstadoDesdeJSON` of `load`: a falsy value is the
default; on any other value the method `toUpperCase` is called, which only a
string has. -/
def mapEstadoDesdeJSON (B : Builtins) (jsonEstado : JSValue) : Except JSError Estado :=
  if !jsonEstado.truthy then .ok .PENDIENTE
  else
    match jsonEstado with
    | .str s =>
      let u := toUpperCase B s
      if u = js "PENDING" then .ok .PENDIENTE
      else if u = js "IN-PROGRESS" then .ok .EN_CURSO
      else if u = js "FINISHED" then .ok .TERMINADA
      else if u = js "CANCELED" then .ok .CANCELADA
      else .ok .PENDIENTE
    | _ => .error .typeError

/-- The local function `mapDificultadDesdeJSON` of `load`. -/
def mapDificultadDesdeJSON (B : Builtins) (jsonDificultad : JSValue) :
    Except JSError Dificultad :=
  if !jsonDificultad.truthy then .ok .FACIL
  else do
    let n ← toNumber B jsonDificultad
    if n = some 1 then pure .FACIL
    else if n = some 2 then pure Dificultad.MEDIO
    else if n = some 3 then pure .DIFICIL
    else pure .FACIL

/-- The body of the inner `try` of `load` up to the construction: the object
literal `{...item, estado: ..., dificultad: ...}` (the spread never throws,
the reads of `item.estado` and `item.dificultad` do on `null`) and the call
`new Tarea(tareaData)`. -/
def tareaDesdeItem (B : Builtins) (ahora : Int) (item : JSValue) : Except JSError Tarea := do
  let estado ← mapEstadoDesdeJSON B (← item.prop (js "estado"))
  let dificultad ← mapDificultadDesdeJSON B (← item.prop (js "dificultad"))
  Tarea.nueva B ahora
    { titulo := ← item.prop (js "titulo")
      descripcion := ← item.prop (js "descripcion")
      estado := some estado
      vencimiento := ← item.prop (js "vencimiento")
      dificultad := some dificultad
      creacion := ← item.prop (js "creacion")
      ultimaEdicion := ← item.prop (js "ultimaEdicion") }

/-- The state of the loop of `load`: the array of the repository and the two
counters. -/
structure Carga where
  tareas : List Tarea
  cargadas : Nat
  errores : Nat
  deriving DecidableEq, Repr

/-- The loop `for (const item of tareasJson)` of `load`, from element number
`i` on; `reloj k` is the clock reading while element `k` is handled. When the
inner `try` throws, the handler reads `item.titulo` for its warning before it
counts the element, and an exception of that read leaves the loop. The result
is the state when the loop ends and the exception that ended it, if any. -/
def loadLoop (B : Builtins) (reloj : Nat → Int) :
    Nat → List JSValue → Carga → Carga × Option JSError
  | _, [], c => (c, none)
  | i, item :: rest, c =>
    match tareaDesdeItem B (reloj i) item with
    | .ok tarea =>
      loadLoop B reloj (i + 1) rest
        { tareas := c.tareas ++ [tarea], cargadas := c.cargadas + 1, errores := c.errores }
    | .error _ =>
      match item.prop (js "titulo") with
      | .error e => (c, some e)
      | .ok _ =>
        loadLoop B reloj (i + 1) rest
          { tareas := c.tareas, cargadas := c.cargadas, errores := c.errores + 1 }

/-- The method `seedDemo`; `reloj k` is the clock reading at the `k`-th
construction. -/
def TareaRepositorio.seedDemo (B : Builtins) (reloj : Nat → Int) (repo : TareaRepositorio) :
    Except JSError TareaRepositorio :=
  if repo.getAll.length > 0 then .ok repo
  else do
    let t1 ← Tarea.nueva B (reloj 0)
      { titulo := .str (js "Comprar Huevos")
        descripcion := .str (js "Ir al súper y comprar una docena")
        estado := some .PENDIENTE
        dificultad := some .FACIL }
    let t2 ← Tarea.nueva B (reloj 1)
      { titulo := .str (js "Pasear al perro")
        descripcion := .str (js "Ejercitar 30 minutos")
        estado := some .EN_CURSO
        dificultad := some Dificultad.MEDIO
        vencimiento :=
          match parseFecha B (js "2025-12-01 18:00") with
          | some t => .date (some t)
          | none => .null }
    let t3 ← Tarea.nueva B (reloj 2)
      { titulo := .str (js "Terminar práctico de BD")
        descripcion := .null
        estado := some .TERMINADA
        dificultad := some .DIFICIL }
    pure (((repo.add t1).add t2).add t3)

/-- What `fs.readFile` and `JSON.parse` make of the file. -/
inductive Archivo where
  /-- The file does not exist (`ENOENT`). -/
  | ausente
  /-- Reading fails for another reason. -/
  | ilegible
  /-- The text is not JSON. -/
  | malformado
  /-- The text parses to the value `v`. -/
  | json (v : JSValue)

/-- How a call of `load` ends. -/
inductive ResultadoCarga where
  /-- The file was read: the two counters of the summary. -/
  | cargado (cargadas errores : Nat)
  /-- The file was absent: `seedDemo` ran. -/
  | demo
  /-- The call threw (the promise is rejected). -/
  | fallo (e : JSError)
  deriving DecidableEq, Repr

/-- The method `load`: the repository when the call ends and how it ended. -/
def TareaRepositorio.load (B : Builtins) (reloj : Nat → Int) (archivo : Archivo)
    (repo : TareaRepositorio) : TareaRepositorio × ResultadoCarga :=
  match archivo with
  | .ausente =>
    match repo.seedDemo B reloj with
    | .ok r => (r, .demo)
    | .error e => (repo, .fallo e)
  | .ilegible => (repo, .fallo .lecturaFallida)
  | .malformado => (repo, .fallo .jsonInvalido)
  | .json (.arr tareasJson) =>
    match loadLoop B reloj 0 tareasJson
        { tareas := repo.tareas, cargadas := 0, errores := 0 } with
    | (c, none) => ({ tareas := c.tareas }, .cargado c.cargadas c.errores)
    | (c, some e) => ({ tareas := c.tareas }, .fallo e)
  | .json _ => (repo, .fallo .noEsArray)

/-- The local function `mapEstadoToJSON` of `save`. -/
def mapEstadoToJSON : Estado → JSString
  | .PENDIENTE => js "PENDING"
  | .EN_CURSO => js "IN-PROGRESS"
  | .TERMINADA => js "FINISHED"
  | .CANCELADA => js "CANCELED"

/-- The local function `mapDificultadToJSON` of `save`. -/
def mapDificultadToJSON : Dificultad → Int
  | .FACIL => 1
  | Dificultad.MEDIO => 2
  | .DIFICIL => 3

/-- The call `d.toISOString()`: a `RangeError` on an invalid `Date`. -/
def toISOString (B : Builtins) (d : JSDate) : Except JSError JSValue :=
  match d with
  | some t => .ok (.str (B.toISOString t))
  | none => .error .rangeError

/-- The property `descripcion` of the object `save` builds: the field as it
is, `null` included. -/
def descripcionParaGuardar : Option JSString → JSValue
  | some d => .str d
  | none => .null

/-- The property `vencimiento` of the object `save` builds:
`tarea.vencimiento ? tarea.vencimiento.toISOString() : null`. -/
def vencimientoParaGuardar (B : Builtins) : Option JSDate → Except JSError JSValue
  | some d => toISOString B d
  | none => .ok .null

/-- The object `save` builds for one task. -/
def tareaParaGuardar (B : Builtins) (tarea : Tarea) : Except JSError JSValue := do
  let creacion ← toISOString B tarea.creacion
  let ultimaEdicion ← toISOString B tarea.ultimaEdicion
  let vencimiento ← vencimientoParaGuardar B tarea.vencimiento
  pure (.obj
    [ (js "titulo", .str tarea.titulo),
      (js "descripcion", descripcionParaGuardar tarea.descripcion),
      (js "estado", .str (mapEstadoToJSON tarea.estado)),
      (js "creacion", creacion),
      (js "ultimaEdicion", ultimaEdicion),
      (js "vencimiento", vencimiento),
      (js "dificultad", .num (mapDificultadToJSON tarea.dificultad)) ])

/-- The call `this.tareas.map(...)` of `save`: the objects in order, or the
first exception. -/
def tareasParaGuardar (B : Builtins) : List Tarea → Except JSError (List JSValue)
  | [] => .ok []
  | tarea :: resto => do
    let x ← tareaParaGuardar B tarea
    let xs ← tareasParaGuardar B resto
    pure (x :: xs)

/-- The method `save`: the value whose JSON text is written to the file, or
`none` when an exception reaches the handler of `save` and nothing is
written. -/
def TareaRepositorio.save (B : Builtins) (repo : TareaRepositorio) : Option JSValue :=
  match tareasParaGuardar B repo.tareas with
  | .ok arreglo => some (.arr arreglo)
  | .error _ => none

deriving instance DecidableEq for Except

/-! ## A host for concrete runs -/

/-- A time value written as a sign and one mark per millisecond. -/
def escribirMarcas (t : Int) : JSString :=
  (if t < 0 then 45 else 43) :: List.replicate t.natAbs 49

/-- Reading back what `escribirMarcas` writes; `NaN` on any other string. -/
def leerMarcas : JSString → JSDate
  | 43 :: marcas => if marcas.all (fun c => c == 49) then some (Int.ofNat marcas.length) else none
  | 45 :: marcas =>
    if marcas.all (fun c => c == 49) && !marcas.isEmpty then some (-(Int.ofNat marcas.length))
    else none
  | _ => none

/-- A small host on which the model can be run: time values are written and
read back in the tally format above, and the routines the concrete runs do not
reach give their failure value. -/
def hostBasico : Builtins where
  toUpperCaseExt := fun s => s
  toLowerCaseExt := fun s => s
  dateParse := leerMarcas
  dateLocal := fun _ _ _ _ _ => none
  dateOfObject := fun _ => .error .typeError
  toISOString := escribirMarcas
  numberOfString := fun _ => none
  numberOfObject := fun _ => .ok none

/-! ## Notions used to state the properties -/

/-- The other parameters of the constructor are absent or valid: the
description is absent, `null` or a string of at most 500 code units; the
creation and last-edit dates are falsy or convert to a valid date; the due
date is falsy or converts to a date without an exception. -/
def TareaParams.restoValido (B : Builtins) (p : TareaParams) : Prop :=
  (p.descripcion = .undefined ∨ p.descripcion = .null ∨
    ∃ d, p.descripcion = .str d ∧ d.length ≤ 500) ∧
  (p.creacion.truthy = false ∨ ∃ c, newDate B p.creacion = .ok (some c)) ∧
  (p.ultimaEdicion.truthy = false ∨ ∃ u, newDate B p.ultimaEdicion = .ok (some u)) ∧
  (p.vencimiento.truthy = false ∨ ∃ v, newDate B p.vencimiento = .ok v)

/-- The tasks a program can hold: the results of a successful construction
and of any call of `actualizar`, returning or throwing, on such a task. -/
inductive Alcanzable (B : Builtins) : Tarea → Prop where
  | nueva (ahora : Int) (p : TareaParams) (t : Tarea)
      (h : Tarea.nueva B ahora p = .ok t) : Alcanzable B t
  | actualizar (ahora : Int) (c : Cambios) (t : Tarea)
      (h : Alcanzable B t) : Alcanzable B (t.actualizar B ahora c).1

/-- The string `s` contains `q`: some copy of `q` lies between a prefix and a
suffix of `s`. -/
def Contiene (s q : JSString) : Prop := ∃ pre post, s = pre ++ q ++ post

/-- The invariant of a task object: a trimmed title of 1 to 100 code units, a
description that is absent or trimmed and of at most 500 code units, valid
creation and last-edit dates, and a due date that is absent or valid. -/
def Tarea.Invariante (t : Tarea) : Prop :=
  trim t.titulo = t.titulo ∧ 1 ≤ t.titulo.length ∧ t.titulo.length ≤ 100 ∧
  (∀ d, t.descripcion = some d → d.length ≤ 500 ∧ trim d = d) ∧
  t.creacion.isSome ∧ t.ultimaEdicion.isSome ∧
  (∀ v, t.vencimiento = some v → v.isSome)

/-- A task for the concrete runs: what `new Tarea({ titulo: "Comprar pan" })`
builds at clock reading 0. -/
def tareaPan : Tarea :=
  { titulo := js "Comprar pan", descripcion := none, estado := .PENDIENTE,
    dificultad := .FACIL, creacion := some 0, ultimaEdicion := some 0, vencimiento := none }

/-- A second task for the concrete runs: what `load` builds from the element
`{ "titulo": "Leer" }` at clock reading 3. -/
def tareaLeer : Tarea :=
  { titulo := js "Leer", descripcion := none, estado := .PENDIENTE,
    dificultad := .FACIL, creacion := some 3, ultimaEdicion := some 3, vencimiento := none }

/-- The tasks built from the valid elements of an array, in array order:
element number `k` is valid when the object literal and the constructor call
of `load` build a task from it at clock reading `reloj k`. The elements are
numbered from `i`. -/
def construidasDesde (B : Builtins) (reloj : Nat → Int) : Nat → List JSValue → List Tarea
  | _, [] => []
  | i, item :: rest =>
    match tareaDesdeItem B (reloj i) item with
    | .ok tarea => tarea :: construidasDesde B reloj (i + 1) rest
    | .error _ => construidasDesde B reloj (i + 1) rest

/-- A call of `save` followed by a call of `load` on a fresh repository that
reads what was written: the loaded repository and the result of `load`, or
`none` when `save` wrote nothing. -/
def guardarYCargar (B : Builtins) (reloj : Nat → Int) (repo : TareaRepositorio) :
    Option (TareaRepositorio × ResultadoCarga) :=
  (repo.save B).map (fun contenido => TareaRepositorio.nuevo.load B reloj (.json contenido))

/-- What ECMAScript guarantees of the two date routines a round trip through
the file goes through: `Date.parse` reads back the time value `toISOString`
wrote, and `toISOString` does not yield the empty string. -/
structure Builtins.FechasConformes (B : Builtins) : Prop where
  parse_iso : ∀ t : Int, B.dateParse (B.toISOString t) = some t
  iso_no_vacia : ∀ t : Int, B.toISOString t ≠ []

/-- The description a task has once the description block of `actualizar` has
run without throwing: the one it had when the field is absent or `""`, none
when the field is `" "`, the trimmed field otherwise. -/
def descripcionAsignada (d : Option JSString) (actual : Option JSString) : Option JSString :=
  match d with
  | none => actual
  | some s => if s = js "" then actual else if s = js " " then none else some (trim s)

/-- The state a task has once the state block of `actualizar` has run without
throwing: the one it had when the field is absent or `""`, the translation of
the field otherwise. -/
def estadoAsignado (B : Builtins) (e : Option JSString) (actual : Estado) : Estado :=
  match e with
  | none => actual
  | some s => if s = js "" then actual else (EstadoDesdeEntrada B s).getD actual

/-- The difficulty a task has once the difficulty block of `actualizar` has
run without throwing: the one it had when the field is absent or `""`, the
translation of the field otherwise. -/
def dificultadAsignada (B : Builtins) (d : Option JSString) (actual : Dificultad) :
    Dificultad :=
  match d with
  | none => actual
  | some s => if s = js "" then actual else (DificultadDesdeEntrada B s).getD actual

/-! ## The date routines of ECMAScript in a zone at a fixed offset -/

/-- The operation `DayFromYear`: the day number, counted from 1 January 1970,
of 1 January of year `y`. -/
def dayFromYear (y : Int) : Int :=
  365 * (y - 1970) + (y - 1969) / 4 - (y - 1901) / 100 + (y - 1601) / 400

/-- Whether `y` is a leap year of the proleptic Gregorian calendar. -/
def inLeapYear (y : Int) : Bool :=
  (y % 4 == 0 && y % 100 != 0) || y % 400 == 0

/-- The number of days of the year before the first day of month `m`, counted
from 0. -/
def daysBeforeMonth (leap : Bool) (m : Int) : Int :=
  let l : Int := if leap then 1 else 0
  if m = 0 then 0
  else if m = 1 then 31
  else if m = 2 then 59 + l
  else if m = 3 then 90 + l
  else if m = 4 then 120 + l
  else if m = 5 then 151 + l
  else if m = 6 then 181 + l
  else if m = 7 then 212 + l
  else if m = 8 then 243 + l
  else if m = 9 then 273 + l
  else if m = 10 then 304 + l
  else 334 + l

/-- The number of days of month `m`, counted from 1, of year `y`. -/
def daysInMonth (y m : Int) : Int :=
  if m = 2 then (if inLeapYear y then 29 else 28)
  else if m = 4 ∨ m = 6 ∨ m = 9 ∨ m = 11 then 30
  else 31

/-- The operation `MakeDay`: the day number of day `date` of month `month`
(counted from 0, months beyond the year carried into it) of year `year`. -/
def makeDay (year month date : Int) : Int :=
  let ym := year + month / 12
  let mn := month % 12
  dayFromYear ym + daysBeforeMonth (inLeapYear ym) mn + date - 1

/-- The operation `MakeTime`, in milliseconds. -/
def makeTime (hour min sec ms : Int) : Int :=
  hour * 3600000 + min * 60000 + sec * 1000 + ms

/-- The operation `MakeDate`, in milliseconds. -/
def makeDate (day time : Int) : Int := day * 86400000 + time

/-- The constructor call `new Date(year, month, day, hours, minutes)` where
local time is `zona` minutes ahead of UTC: a year from 0 to 99 stands for
1900 + year, and the fields are read as local time. -/
def dateLocalZona (zona : Int) (year month day hours minutes : Int) : JSDate :=
  let yr := if 0 ≤ year ∧ year ≤ 99 then 1900 + year else year
  timeClip (makeDate (makeDay yr month day) (makeTime hours minutes 0 0) - zona * 60000)

/-- The function `Date.parse` where local time is `zona` minutes ahead of UTC,
on the two shapes of the date-time string format that `parseFecha` produces:
the date-only form `YYYY-MM-DD` is read as UTC and the form `YYYY-MM-DDTHH:mm`
as local time. A field out of range makes the string invalid; any other
string is `NaN` in this model. -/
def dateParseZona (zona : Int) (s : JSString) : JSDate :=
  if matchISO s && (s.length == 10 || unitAt s 10 84) then
    let year := parseIntDigits (s.take 4)
    let month := parseIntDigits ((s.drop 5).take 2)
    let day := parseIntDigits ((s.drop 8).take 2)
    if 1 ≤ month ∧ month ≤ 12 ∧ 1 ≤ day ∧ day ≤ daysInMonth year month then
      if s.length == 10 then timeClip (makeDate (makeDay year (month - 1) day) 0)
      else
        let hours := parseIntDigits ((s.drop 11).take 2)
        let minutes := parseIntDigits ((s.drop 14).take 2)
        if (hours ≤ 23 ∧ minutes ≤ 59) ∨ (hours = 24 ∧ minutes = 0) then
          timeClip (makeDate (makeDay year (month - 1) day) (makeTime hours minutes 0 0)
            - zona * 60000)
        else none
    else none
  else none

/-- A host whose local time is `zona` minutes ahead of UTC: its two date
routines are the ones above, the other routines those of `hostBasico`. -/
def hostZona (zona : Int) : Builtins :=
  { hostBasico with
    dateParse := dateParseZona zona
    dateLocal := dateLocalZona zona }

/-! ## Lemmas on strings -/

theorem dropWhile_length_le (p : Nat → Bool) (l : List Nat) :
    (l.dropWhile p).length ≤ l.length := by
  induction l with
  | nil => simp
  | cons a l ih =>
    simp only [List.dropWhile_cons]
    split
    · exact Nat.le_succ_of_le ih
    · exact Nat.le_refl _

theorem trim_length_le (s : JSString) : (trim s).length ≤ s.length := by
  unfold trim trimEnd trimStart
  rw [List.length_reverse]
  calc ((s.dropWhile isWhiteSpace).reverse.dropWhile isWhiteSpace).length
      ≤ (s.dropWhile isWhiteSpace).reverse.length := dropWhile_length_le _ _
    _ = (s.dropWhile isWhiteSpace).length := List.length_reverse _
    _ ≤ s.length := dropWhile_length_le _ _

theorem dropWhile_append_singleton (p : Nat → Bool) (l : List Nat) (c : Nat)
    (hc : p c = false) : (l ++ [c]).dropWhile p = l.dropWhile p ++ [c] := by
  induction l with
  | nil => simp [List.dropWhile, hc]
  | cons a l ih =>
    simp only [List.cons_append, List.dropWhile_cons]
    split
    · exact ih
    · rfl

theorem trimStart_trimEnd_of_fixed (a : JSString) (h : trimStart a = a) :
    trimStart (trimEnd a) = trimEnd a := by
  cases a with
  | nil => rfl
  | cons c r =>
    have hc : isWhiteSpace c = false := by
      by_contra hne
      have hw : isWhiteSpace c = true := by simpa using hne
      have hlen := dropWhile_length_le isWhiteSpace r
      unfold trimStart at h
      rw [List.dropWhile_cons, if_pos hw] at h
      rw [h] at hlen
      simp at hlen
    have e : trimEnd (c :: r) = c :: (r.reverse.dropWhile isWhiteSpace).reverse := by
      unfold trimEnd
      rw [List.reverse_cons, dropWhile_append_singleton _ _ _ hc]
      simp
    rw [e]
    unfold trimStart
    rw [List.dropWhile_cons, if_neg (by simp [hc])]

theorem trimEnd_idem (a : JSString) : trimEnd (trimEnd a) = trimEnd a := by
  unfold trimEnd
  rw [List.reverse_reverse, List.dropWhile_idempotent]

theorem trim_idem (s : JSString) : trim (trim s) = trim s := by
  have h1 : trimStart (trimStart s) = trimStart s := by
    unfold trimStart
    exact List.dropWhile_idempotent _ _
  unfold trim
  rw [trimStart_trimEnd_of_fixed _ h1, trimEnd_idem]

/-! ## Lemmas on the constructor -/

theorem trim_nil : trim [] = [] := rfl

theorem tituloValidado_ok_iff (v : JSValue) (x : JSString) :
    tituloValidado v = .ok x ↔
      ∃ s, v = .str s ∧ 1 ≤ (trim s).length ∧ (trim s).length ≤ 100 ∧ x = trim s := by
  cases v with
  | str s =>
    unfold tituloValidado
    by_cases he : s = []
    · subst he
      simp [trim_nil]
    · by_cases h0 : (trim s).length = 0
      · simp [he, h0]
      · by_cases h1 : (trim s).length > 100
        · simp only [h1, or_true, if_true]
          constructor
          · intro h; cases h
          · rintro ⟨s1, hs, -, h3, -⟩
            cases hs
            omega
        · simp only [List.isEmpty_iff, he, h0, h1, or_self, if_false, Except.ok.injEq,
            JSValue.str.injEq, exists_eq_left']
          constructor
          · intro h
            exact ⟨by omega, by omega, h.symm⟩
          · rintro ⟨-, -, h⟩
            exact h.symm
  | _ => simp [tituloValidado]

theorem tituloValidado_error (v : JSValue) (e : JSError) (h : tituloValidado v = .error e) :
    e = .tituloInvalido := by
  cases v <;> simp only [tituloValidado] at h
  all_goals first
    | (cases h; rfl)
    | (split at h
       · cases h; rfl
       · cases h)

theorem descripcionValidada_length (v : JSValue) (d : JSString)
    (h : descripcionValidada v = .ok (some d)) : d.length ≤ 500 ∧ trim d = d := by
  cases v <;> simp only [descripcionValidada] at h
  all_goals try cases h
  rename_i s
  split at h
  · cases h
  · split at h
    · cases h
      have := trim_length_le s
      exact ⟨by omega, trim_idem s⟩
    · cases h

theorem nueva_ok_elim {B : Builtins} {ahora : Int} {p : TareaParams} {t : Tarea}
    (h : Tarea.nueva B ahora p = .ok t) :
    tituloValidado p.titulo = .ok t.titulo ∧
    descripcionValidada p.descripcion = .ok t.descripcion ∧
    t.estado = p.estado.getD .PENDIENTE ∧ t.dificultad = p.dificultad.getD .FACIL ∧
    fechaCreacion B ahora p.creacion = .ok t.creacion ∧
    fechaUltimaEdicion B t.creacion p.ultimaEdicion = .ok t.ultimaEdicion ∧
    fechaVencimiento B p.vencimiento = .ok t.vencimiento ∧
    t.creacion.isSome ∧ t.ultimaEdicion.isSome := by
  unfold Tarea.nueva at h
  simp only [bind, Except.bind, pure, Except.pure, throw, throwThe, MonadExceptOf.throw] at h
  split at h
  · cases h
  split at h
  · cases h
  split at h
  · cases h
  split at h
  · cases h
  split at h
  · cases h
  split at h
  · cases h
  split at h
  · cases h
  cases h
  simp_all [Option.isSome_iff_ne_none]

theorem nueva_ok_intro {B : Builtins} {ahora : Int} {p : TareaParams}
    {ti : JSString} {de : Option JSString} {c u : Int} {v : Option JSDate}
    (h1 : tituloValidado p.titulo = .ok ti)
    (h2 : descripcionValidada p.descripcion = .ok de)
    (h3 : fechaCreacion B ahora p.creacion = .ok (some c))
    (h4 : fechaUltimaEdicion B (some c) p.ultimaEdicion = .ok (some u))
    (h5 : fechaVencimiento B p.vencimiento = .ok v) :
    Tarea.nueva B ahora p = .ok
      { titulo := ti, descripcion := de, estado := p.estado.getD .PENDIENTE,
        dificultad := p.dificultad.getD .FACIL, creacion := some c,
        ultimaEdicion := some u, vencimiento := v } := by
  unfold Tarea.nueva
  simp [bind, Except.bind, pure, Except.pure, h1, h2, h3, h4, h5]

theorem nueva_titulo_error {B : Builtins} {ahora : Int} {p : TareaParams} {e : JSError}
    (h : tituloValidado p.titulo = .error e) : Tarea.nueva B ahora p = .error e := by
  unfold Tarea.nueva
  simp [bind, Except.bind, h]

theorem fechaVencimiento_valida {B : Builtins} {v : JSValue} {r : Option JSDate} {d : JSDate}
    (h : fechaVencimiento B v = .ok r) (hr : r = some d) : d.isSome := by
  unfold fechaVencimiento at h
  split at h
  · split at h
    · rename_i x _
      cases h
      split at hr
      · cases hr; assumption
      · cases hr
    · cases h
  · cases h; cases hr

theorem fechas_de_resto_valido {B : Builtins} (ahora : Int) {p : TareaParams}
    (h : p.restoValido B) :
    (∃ de, descripcionValidada p.descripcion = .ok de) ∧
    ∃ c u v, fechaCreacion B ahora p.creacion = .ok (some c) ∧
      fechaUltimaEdicion B (some c) p.ultimaEdicion = .ok (some u) ∧
      fechaVencimiento B p.vencimiento = .ok v := by
  obtain ⟨hd, hc, hu, hv⟩ := h
  have h1 : ∃ de, descripcionValidada p.descripcion = .ok de := by
    rcases hd with hd | hd | ⟨d, hd, hlen⟩
    · rw [hd]; exact ⟨none, rfl⟩
    · rw [hd]; exact ⟨none, rfl⟩
    · rw [hd]
      simp only [descripcionValidada]
      rw [if_neg (show ¬ d.length > 500 by omega)]
      split
      · exact ⟨_, rfl⟩
      · exact ⟨_, rfl⟩
  have h2 : ∃ c, fechaCreacion B ahora p.creacion = .ok (some c) := by
    unfold fechaCreacion
    rcases hc with hc | ⟨c, hc⟩
    · rw [hc]; exact ⟨ahora, rfl⟩
    · by_cases ht : p.creacion.truthy = true
      · rw [if_pos ht]; exact ⟨c, hc⟩
      · rw [if_neg ht]; exact ⟨ahora, rfl⟩
  obtain ⟨c, h2⟩ := h2
  have h3 : ∃ u, fechaUltimaEdicion B (some c) p.ultimaEdicion = .ok (some u) := by
    unfold fechaUltimaEdicion
    rcases hu with hu | ⟨u, hu⟩
    · rw [hu]; exact ⟨c, rfl⟩
    · by_cases ht : p.ultimaEdicion.truthy = true
      · rw [if_pos ht]; exact ⟨u, hu⟩
      · rw [if_neg ht]; exact ⟨c, rfl⟩
  obtain ⟨u, h3⟩ := h3
  have h4 : ∃ v, fechaVencimiento B p.vencimiento = .ok v := by
    unfold fechaVencimiento
    rcases hv with hv | ⟨v, hv⟩
    · rw [hv]; exact ⟨none, rfl⟩
    · by_cases ht : p.vencimiento.truthy = true
      · rw [if_pos ht, hv]; exact ⟨_, rfl⟩
      · rw [if_neg ht]; exact ⟨none, rfl⟩
  obtain ⟨v, h4⟩ := h4
  exact ⟨h1, c, u, v, h2, h3, h4⟩

/-! ## Title validation at construction -/

/-- C5. With every other parameter absent or valid, `new Tarea(...)` succeeds
if and only if `titulo` is a string whose trimmed length is between 1 and 100;
on success the stored title is the trimmed `titulo`, and otherwise the
construction throws the title validation error. -/
theorem nueva_titulo_validacion (B : Builtins) (ahora : Int) (p : TareaParams)
    (h : p.restoValido B) :
    ((∃ t, Tarea.nueva B ahora p = .ok t) ↔
      ∃ s, p.titulo = .str s ∧ 1 ≤ (trim s).length ∧ (trim s).length ≤ 100) ∧
    (∀ t, Tarea.nueva B ahora p = .ok t → ∃ s, p.titulo = .str s ∧ t.titulo = trim s) ∧
    ((¬ ∃ s, p.titulo = .str s ∧ 1 ≤ (trim s).length ∧ (trim s).length ≤ 100) →
      Tarea.nueva B ahora p = .error .tituloInvalido ∧
        JSError.esValidacion .tituloInvalido = true) := by
  obtain ⟨⟨de, h2⟩, c, u, v, h3, h4, h5⟩ := fechas_de_resto_valido ahora h
  refine ⟨⟨?_, ?_⟩, ?_, ?_⟩
  · rintro ⟨t, ht⟩
    obtain ⟨s, hs, h1, h100, -⟩ := (tituloValidado_ok_iff _ _).mp (nueva_ok_elim ht).1
    exact ⟨s, hs, h1, h100⟩
  · rintro ⟨s, hs, h1, h100⟩
    have ht : tituloValidado p.titulo = .ok (trim s) :=
      (tituloValidado_ok_iff _ _).mpr ⟨s, hs, h1, h100, rfl⟩
    exact ⟨_, nueva_ok_intro ht h2 h3 h4 h5⟩
  · intro t ht
    obtain ⟨s, hs, -, -, htit⟩ := (tituloValidado_ok_iff _ _).mp (nueva_ok_elim ht).1
    exact ⟨s, hs, htit⟩
  · intro hno
    refine ⟨?_, rfl⟩
    cases htv : tituloValidado p.titulo with
    | error e =>
      have := tituloValidado_error _ _ htv
      subst this
      exact nueva_titulo_error htv
    | ok x =>
      obtain ⟨s, hs, h1, h100, -⟩ := (tituloValidado_ok_iff _ _).mp htv
      exact absurd ⟨s, hs, h1, h100⟩ hno

/-- C5 at a concrete input: the title `"  Comprar pan "`, all other parameters
absent. -/
theorem nueva_titulo_validacion_witness :
    ((∃ t, Tarea.nueva hostBasico 7 { titulo := .str (js "  Comprar pan ") } = .ok t) ↔
      ∃ s, JSValue.str (js "  Comprar pan ") = .str s ∧ 1 ≤ (trim s).length ∧
        (trim s).length ≤ 100) ∧
    (∀ t, Tarea.nueva hostBasico 7 { titulo := .str (js "  Comprar pan ") } = .ok t →
      ∃ s, JSValue.str (js "  Comprar pan ") = .str s ∧ t.titulo = trim s) ∧
    ((¬ ∃ s, JSValue.str (js "  Comprar pan ") = .str s ∧ 1 ≤ (trim s).length ∧
        (trim s).length ≤ 100) →
      Tarea.nueva hostBasico 7 { titulo := .str (js "  Comprar pan ") } = .error .tituloInvalido ∧
        JSError.esValidacion .tituloInvalido = true) :=
  nueva_titulo_validacion hostBasico 7 { titulo := .str (js "  Comprar pan ") }
    ⟨Or.inl rfl, Or.inl rfl, Or.inl rfl, Or.inl rfl⟩

/-! ## Lemmas on `actualizar` -/

theorem actualizarDescripcion_cases (d : Option JSString) (t : Tarea) :
    (actualizarDescripcion d t = .ok t ∧ (d = none ∨ d = some (js ""))) ∨
    (actualizarDescripcion d t = .ok { t with descripcion := none } ∧ d = some (js " ")) ∨
    (∃ s, d = some s ∧ s ≠ js "" ∧ s ≠ js " " ∧ s.length ≤ 500 ∧
      actualizarDescripcion d t = .ok { t with descripcion := some (trim s) }) ∨
    (∃ s, d = some s ∧ s.length > 500 ∧
      actualizarDescripcion d t = .error .descripcionInvalida) := by
  cases d with
  | none => exact Or.inl ⟨rfl, Or.inl rfl⟩
  | some s =>
    by_cases h1 : s = js ""
    · subst h1
      exact Or.inl ⟨rfl, Or.inr rfl⟩
    · by_cases h2 : s = js " "
      · subst h2
        exact Or.inr (Or.inl ⟨rfl, rfl⟩)
      · by_cases h3 : s.length > 500
        · refine Or.inr (Or.inr (Or.inr ⟨s, rfl, h3, ?_⟩))
          simp [actualizarDescripcion, h1, h2, h3]
        · refine Or.inr (Or.inr (Or.inl ⟨s, rfl, h1, h2, by omega, ?_⟩))
          simp [actualizarDescripcion, h1, h2, h3]

theorem actualizarDescripcion_frame (d : Option JSString) (t : Tarea) :
    actualizarDescripcion d t = .error .descripcionInvalida ∨
    ∃ d1, actualizarDescripcion d t = .ok { t with descripcion := d1 } ∧
      (d1 = t.descripcion ∨ d1 = none ∨ ∃ s, s.length ≤ 500 ∧ d1 = some (trim s)) := by
  rcases actualizarDescripcion_cases d t with ⟨h, -⟩ | ⟨h, -⟩ | ⟨s, -, -, -, hl, h⟩ | ⟨s, -, -, h⟩
  · exact Or.inr ⟨t.descripcion, h, Or.inl rfl⟩
  · exact Or.inr ⟨none, h, Or.inr (Or.inl rfl)⟩
  · exact Or.inr ⟨some (trim s), h, Or.inr (Or.inr ⟨s, hl, rfl⟩)⟩
  · exact Or.inl h

theorem actualizarEstado_frame (B : Builtins) (e : Option JSString) (t : Tarea) :
    actualizarEstado B e t = .error .estadoInvalido ∨
    ∃ e1, actualizarEstado B e t = .ok { t with estado := e1 } := by
  unfold actualizarEstado
  cases e with
  | none => exact Or.inr ⟨t.estado, rfl⟩
  | some s =>
    simp only
    split
    · exact Or.inr ⟨t.estado, rfl⟩
    · split
      · exact Or.inl rfl
      · rename_i x _
        exact Or.inr ⟨x, rfl⟩

theorem actualizarDificultad_frame (B : Builtins) (d : Option JSString) (t : Tarea) :
    actualizarDificultad B d t = .error .dificultadInvalida ∨
    ∃ f1, actualizarDificultad B d t = .ok { t with dificultad := f1 } := by
  unfold actualizarDificultad
  cases d with
  | none => exact Or.inr ⟨t.dificultad, rfl⟩
  | some s =>
    simp only
    split
    · exact Or.inr ⟨t.dificultad, rfl⟩
    · split
      · exact Or.inl rfl
      · rename_i x _
        exact Or.inr ⟨x, rfl⟩

theorem actualizarVencimiento_frame (B : Builtins) (v : Option JSString) (t : Tarea) :
    actualizarVencimiento B v t = .error .vencimientoInvalido ∨
    ∃ v1, actualizarVencimiento B v t = .ok { t with vencimiento := v1 } ∧
      (v1 = t.vencimiento ∨ v1 = none ∨ ∃ f, v1 = some (some f)) := by
  unfold actualizarVencimiento
  cases v with
  | none => exact Or.inr ⟨t.vencimiento, rfl, Or.inl rfl⟩
  | some s =>
    simp only
    split
    · exact Or.inr ⟨t.vencimiento, rfl, Or.inl rfl⟩
    · split
      · exact Or.inr ⟨none, rfl, Or.inr (Or.inl rfl)⟩
      · split
        · exact Or.inl rfl
        · rename_i x _
          exact Or.inr ⟨some (some x), rfl, Or.inr (Or.inr ⟨x, rfl⟩)⟩

/-- The five ways a call of `actualizar` can end: thrown out of one of the
four blocks with the earlier blocks applied, or returned with all four applied
and the edit date set. -/
theorem actualizar_cases (B : Builtins) (ahora : Int) (c : Cambios) (t : Tarea) :
    t.actualizar B ahora c = (t, some .descripcionInvalida) ∨
    ∃ d1, (d1 = t.descripcion ∨ d1 = none ∨ ∃ s, s.length ≤ 500 ∧ d1 = some (trim s)) ∧
      (t.actualizar B ahora c = ({ t with descripcion := d1 }, some .estadoInvalido) ∨
      ∃ e1,
        t.actualizar B ahora c =
          ({ t with descripcion := d1, estado := e1 }, some .dificultadInvalida) ∨
        ∃ f1,
          t.actualizar B ahora c =
            ({ t with descripcion := d1, estado := e1, dificultad := f1 },
              some .vencimientoInvalido) ∨
          ∃ v1, (v1 = t.vencimiento ∨ v1 = none ∨ ∃ f, v1 = some (some f)) ∧
            t.actualizar B ahora c =
              ({ t with descripcion := d1, estado := e1, dificultad := f1,
                        vencimiento := v1, ultimaEdicion := some ahora }, none)) := by
  unfold Tarea.actualizar
  rcases actualizarDescripcion_frame c.descripcion t with h1 | ⟨d1, h1, hd⟩
  · rw [h1]; exact Or.inl rfl
  · rw [h1]
    dsimp only
    refine Or.inr ⟨d1, hd, ?_⟩
    rcases actualizarEstado_frame B c.estado { t with descripcion := d1 } with h2 | ⟨e1, h2⟩
    · rw [h2]; exact Or.inl rfl
    · rw [h2]
      dsimp only
      refine Or.inr ⟨e1, ?_⟩
      rcases actualizarDificultad_frame B c.dificultad
        { t with descripcion := d1, estado := e1 } with h3 | ⟨f1, h3⟩
      · rw [h3]; exact Or.inl rfl
      · rw [h3]
        dsimp only
        refine Or.inr ⟨f1, ?_⟩
        rcases actualizarVencimiento_frame B c.vencimiento
          { t with descripcion := d1, estado := e1, dificultad := f1 } with h4 | ⟨v1, h4, hv⟩
        · rw [h4]; exact Or.inl rfl
        · rw [h4]
          exact Or.inr ⟨v1, hv, rfl⟩

theorem nueva_invariante {B : Builtins} {ahora : Int} {p : TareaParams} {t : Tarea}
    (h : Tarea.nueva B ahora p = .ok t) : t.Invariante := by
  obtain ⟨h1, h2, -, -, -, -, h7, h8, h9⟩ := nueva_ok_elim h
  obtain ⟨s, -, hlo, hhi, htit⟩ := (tituloValidado_ok_iff _ _).mp h1
  refine ⟨?_, ?_, ?_, ?_, h8, h9, ?_⟩
  · rw [htit, trim_idem]
  · rw [htit]; exact hlo
  · rw [htit]; exact hhi
  · intro d hd
    rw [hd] at h2
    exact descripcionValidada_length _ _ h2
  · intro v hv
    exact fechaVencimiento_valida h7 hv

theorem actualizar_invariante (B : Builtins) (ahora : Int) (c : Cambios) (t : Tarea)
    (h : t.Invariante) : (t.actualizar B ahora c).1.Invariante := by
  obtain ⟨i1, i2, i3, i4, i5, i6, i7⟩ := h
  have hdesc : ∀ d1, (d1 = t.descripcion ∨ d1 = none ∨ ∃ s, s.length ≤ 500 ∧ d1 = some (trim s)) →
      ∀ d, d1 = some d → d.length ≤ 500 ∧ trim d = d := by
    intro d1 hd1 d hd
    rcases hd1 with rfl | rfl | ⟨s, hs, rfl⟩
    · exact i4 d hd
    · cases hd
    · cases hd
      have := trim_length_le s
      exact ⟨by omega, trim_idem s⟩
  rcases actualizar_cases B ahora c t with h | ⟨d1, hd1, h | ⟨e1, h | ⟨f1, h | ⟨v1, hv1, h⟩⟩⟩⟩
  · rw [h]; exact ⟨i1, i2, i3, i4, i5, i6, i7⟩
  · rw [h]; exact ⟨i1, i2, i3, hdesc d1 hd1, i5, i6, i7⟩
  · rw [h]; exact ⟨i1, i2, i3, hdesc d1 hd1, i5, i6, i7⟩
  · rw [h]; exact ⟨i1, i2, i3, hdesc d1 hd1, i5, i6, i7⟩
  · rw [h]
    refine ⟨i1, i2, i3, hdesc d1 hd1, i5, rfl, ?_⟩
    intro v hv
    rcases hv1 with rfl | rfl | ⟨f, rfl⟩
    · exact i7 v hv
    · cases hv
    · cases hv; rfl

theorem alcanzable_invariante {B : Builtins} {t : Tarea} (h : Alcanzable B t) :
    t.Invariante := by
  induction h with
  | nueva ahora p t h => exact nueva_invariante h
  | actualizar ahora c t _ ih => exact actualizar_invariante B ahora c t ih

theorem actualizarDescripcion_exacta (d : Option JSString) (t : Tarea) :
    actualizarDescripcion d t = .error .descripcionInvalida ∨
    actualizarDescripcion d t
      = .ok { t with descripcion := descripcionAsignada d t.descripcion } := by
  rcases actualizarDescripcion_cases d t with
    ⟨h, hd⟩ | ⟨h, hd⟩ | ⟨s, hd, h1, h2, -, h⟩ | ⟨s, -, -, h⟩
  · refine Or.inr ?_
    rw [h]
    rcases hd with rfl | rfl <;> rfl
  · refine Or.inr ?_
    rw [h, hd]
    rfl
  · refine Or.inr ?_
    rw [h, hd]
    simp [descripcionAsignada, h1, h2]
  · exact Or.inl h

theorem actualizarEstado_exacta (B : Builtins) (e : Option JSString) (t : Tarea) :
    actualizarEstado B e t = .error .estadoInvalido ∨
    actualizarEstado B e t = .ok { t with estado := estadoAsignado B e t.estado } := by
  cases e with
  | none => exact Or.inr rfl
  | some s =>
    by_cases h : s = js ""
    · subst h
      exact Or.inr rfl
    · cases hE : EstadoDesdeEntrada B s with
      | none =>
        refine Or.inl ?_
        simp [actualizarEstado, h, hE]
      | some x =>
        refine Or.inr ?_
        simp [actualizarEstado, estadoAsignado, h, hE]

theorem actualizarDificultad_exacta (B : Builtins) (d : Option JSString) (t : Tarea) :
    actualizarDificultad B d t = .error .dificultadInvalida ∨
    actualizarDificultad B d t
      = .ok { t with dificultad := dificultadAsignada B d t.dificultad } := by
  cases d with
  | none => exact Or.inr rfl
  | some s =>
    by_cases h : s = js ""
    · subst h
      exact Or.inr rfl
    · cases hD : DificultadDesdeEntrada B s with
      | none =>
        refine Or.inl ?_
        simp [actualizarDificultad, h, hD]
      | some x =>
        refine Or.inr ?_
        simp [actualizarDificultad, dificultadAsignada, h, hD]

/-- The state a throwing call of `actualizar` leaves: the blocks before the one
that threw have assigned their fields, the others have not run. -/
theorem actualizar_exacta (B : Builtins) (ahora : Int) (c : Cambios) (t : Tarea) :
    t.actualizar B ahora c = (t, some .descripcionInvalida) ∨
    t.actualizar B ahora c
      = ({ t with descripcion := descripcionAsignada c.descripcion t.descripcion },
          some .estadoInvalido) ∨
    t.actualizar B ahora c
      = ({ t with descripcion := descripcionAsignada c.descripcion t.descripcion,
                  estado := estadoAsignado B c.estado t.estado },
          some .dificultadInvalida) ∨
    t.actualizar B ahora c
      = ({ t with descripcion := descripcionAsignada c.descripcion t.descripcion,
                  estado := estadoAsignado B c.estado t.estado,
                  dificultad := dificultadAsignada B c.dificultad t.dificultad },
          some .vencimientoInvalido) ∨
    (t.actualizar B ahora c).2 = none := by
  unfold Tarea.actualizar
  rcases actualizarDescripcion_exacta c.descripcion t with h1 | h1
  · rw [h1]; exact Or.inl rfl
  · rw [h1]
    dsimp only
    refine Or.inr ?_
    rcases actualizarEstado_exacta B c.estado
      { t with descripcion := descripcionAsignada c.descripcion t.descripcion } with h2 | h2
    · rw [h2]; exact Or.inl rfl
    · rw [h2]
      dsimp only
      refine Or.inr ?_
      rcases actualizarDificultad_exacta B c.dificultad
        { t with descripcion := descripcionAsignada c.descripcion t.descripcion,
                 estado := estadoAsignado B c.estado t.estado } with h3 | h3
      · rw [h3]; exact Or.inl rfl
      · rw [h3]
        dsimp only
        refine Or.inr ?_
        rcases actualizarVencimiento_frame B c.vencimiento
          { t with descripcion := descripcionAsignada c.descripcion t.descripcion,
                   estado := estadoAsignado B c.estado t.estado,
                   dificultad := dificultadAsignada B c.dificultad t.dificultad }
          with h4 | ⟨v1, h4, -⟩
        · rw [h4]; exact Or.inl rfl
        · rw [h4]; exact Or.inr rfl

/-! ## Update atomicity -/

/-- C2, refuted as stated: the update `{ descripcion: "integral", estado: "X" }`
of the task `"Comprar pan"` throws the validation error of the state, and the
description of the task has changed from absent to `"integral"`. -/
theorem actualizar_no_atomica :
    Tarea.nueva hostBasico 0 { titulo := .str (js "Comprar pan") } = .ok tareaPan ∧
    (tareaPan.actualizar hostBasico 5
      { descripcion := some (js "integral"), estado := some (js "X") }).2
        = some .estadoInvalido ∧
    JSError.esValidacion .estadoInvalido = true ∧
    (tareaPan.actualizar hostBasico 5
      { descripcion := some (js "integral"), estado := some (js "X") }).1.descripcion
        = some (js "integral") ∧
    tareaPan.descripcion = none := by
  decide

/-- C2, amended: when `actualizar` throws, the exception is the validation
error of one of the four fields, the edit date and the due date are unchanged,
and the rejected field and every field after it in the order description,
state, difficulty, due date are unchanged (so a rejected description changes
nothing); the fields before the rejected one have been assigned and stay
assigned: the task is left with the description, then the state, then the
difficulty that the blocks before the rejected field give it, every other
field as before the call. -/
theorem actualizar_fallo_parcial (B : Builtins) (ahora : Int) (c : Cambios) (t : Tarea)
    (e : JSError) (h : (t.actualizar B ahora c).2 = some e) :
    (e = .descripcionInvalida ∨ e = .estadoInvalido ∨ e = .dificultadInvalida ∨
      e = .vencimientoInvalido) ∧
    e.esValidacion = true ∧
    (t.actualizar B ahora c).1.ultimaEdicion = t.ultimaEdicion ∧
    (t.actualizar B ahora c).1.vencimiento = t.vencimiento ∧
    (e = .descripcionInvalida → (t.actualizar B ahora c).1 = t) ∧
    (e = .estadoInvalido →
      (t.actualizar B ahora c).1.estado = t.estado ∧
      (t.actualizar B ahora c).1.dificultad = t.dificultad) ∧
    (e = .dificultadInvalida → (t.actualizar B ahora c).1.dificultad = t.dificultad) ∧
    (e = .estadoInvalido →
      (t.actualizar B ahora c).1
        = { t with descripcion := descripcionAsignada c.descripcion t.descripcion }) ∧
    (e = .dificultadInvalida →
      (t.actualizar B ahora c).1
        = { t with descripcion := descripcionAsignada c.descripcion t.descripcion,
                   estado := estadoAsignado B c.estado t.estado }) ∧
    (e = .vencimientoInvalido →
      (t.actualizar B ahora c).1
        = { t with descripcion := descripcionAsignada c.descripcion t.descripcion,
                   estado := estadoAsignado B c.estado t.estado,
                   dificultad := dificultadAsignada B c.dificultad t.dificultad }) := by
  rcases actualizar_exacta B ahora c t with h1 | h1 | h1 | h1 | h1
  · rw [h1] at h ⊢
    simp only [Option.some.injEq] at h
    subst h
    simp [JSError.esValidacion]
  · rw [h1] at h ⊢
    simp only [Option.some.injEq] at h
    subst h
    simp [JSError.esValidacion]
  · rw [h1] at h ⊢
    simp only [Option.some.injEq] at h
    subst h
    simp [JSError.esValidacion]
  · rw [h1] at h ⊢
    simp only [Option.some.injEq] at h
    subst h
    simp [JSError.esValidacion]
  · rw [h1] at h
    cases h

/-- C2 amended, at the input of `actualizar_no_atomica`: the state is rejected,
the edit date and the state are the ones before the call, and the description
has been assigned. -/
theorem actualizar_fallo_parcial_witness :
    (tareaPan.actualizar hostBasico 5
      { descripcion := some (js "integral"), estado := some (js "X") }).2
        = some .estadoInvalido ∧
    (tareaPan.actualizar hostBasico 5
      { descripcion := some (js "integral"), estado := some (js "X") }).1.ultimaEdicion
        = tareaPan.ultimaEdicion ∧
    (tareaPan.actualizar hostBasico 5
      { descripcion := some (js "integral"), estado := some (js "X") }).1.estado
        = tareaPan.estado ∧
    (tareaPan.actualizar hostBasico 5
      { descripcion := some (js "integral"), estado := some (js "X") }).1
        = { tareaPan with descripcion := some (js "integral") } :=
  have h := actualizar_fallo_parcial hostBasico 5
    { descripcion := some (js "integral"), estado := some (js "X") } tareaPan
    .estadoInvalido (by decide)
  ⟨by decide, h.2.2.1, (h.2.2.2.2.2.1 rfl).1, h.2.2.2.2.2.2.2.1 rfl⟩

/-! ## Description update rules -/

/-- C6. With only `descripcion` given, `actualizar` returns and: `""` leaves
the description as it is; `" "` sets it to absent; any other string of at most
500 code units sets it to that string trimmed; a string of more than 500 code
units makes the call throw the description validation error, the task
unchanged. -/
theorem actualizar_descripcion_reglas (B : Builtins) (ahora : Int) (t : Tarea)
    (s : JSString) (h1 : s ≠ js "") (h2 : s ≠ js " ") :
    t.actualizar B ahora { descripcion := some (js "") }
      = ({ t with ultimaEdicion := some ahora }, none) ∧
    t.actualizar B ahora { descripcion := some (js " ") }
      = ({ t with descripcion := none, ultimaEdicion := some ahora }, none) ∧
    t.actualizar B ahora { descripcion := some s }
      = (if s.length ≤ 500 then
          ({ t with descripcion := some (trim s), ultimaEdicion := some ahora }, none)
        else (t, some .descripcionInvalida)) ∧
    JSError.esValidacion .descripcionInvalida = true := by
  refine ⟨rfl, rfl, ?_, rfl⟩
  by_cases h3 : s.length ≤ 500
  · rw [if_pos h3]
    have h3n : ¬ s.length > 500 := by omega
    simp [Tarea.actualizar, actualizarDescripcion, actualizarEstado, actualizarDificultad,
      actualizarVencimiento, h1, h2, h3n]
  · rw [if_neg h3]
    have h3n : s.length > 500 := by omega
    simp [Tarea.actualizar, actualizarDescripcion, h1, h2, h3n]

/-- C6 at the description `"  con semillas "` on the task `"Comprar pan"`. -/
theorem actualizar_descripcion_reglas_witness :
    js "  con semillas " ≠ js "" ∧ js "  con semillas " ≠ js " " ∧
    tareaPan.actualizar hostBasico 9 { descripcion := some (js "  con semillas ") }
      = ({ tareaPan with descripcion := some (js "con semillas"), ultimaEdicion := some 9 },
          none) :=
  ⟨by decide, by decide,
    (actualizar_descripcion_reglas hostBasico 9 tareaPan (js "  con semillas ")
      (by decide) (by decide)).2.2.1⟩

/-! ## Task invariants -/

/-- C7. Every task obtained by a successful construction followed by any
sequence of `actualizar` calls, returning or throwing, has a trimmed title of
1 to 100 code units, a description that is absent or of at most 500 code
units, and valid creation and last-edit dates. -/
theorem alcanzable_invariantes (B : Builtins) (t : Tarea) (h : Alcanzable B t) :
    trim t.titulo = t.titulo ∧ 1 ≤ t.titulo.length ∧ t.titulo.length ≤ 100 ∧
    (t.descripcion = none ∨ ∃ d, t.descripcion = some d ∧ d.length ≤ 500) ∧
    (∃ c, t.creacion = some c) ∧ (∃ u, t.ultimaEdicion = some u) := by
  obtain ⟨i1, i2, i3, i4, i5, i6, -⟩ := alcanzable_invariante h
  refine ⟨i1, i2, i3, ?_, Option.isSome_iff_exists.mp i5, Option.isSome_iff_exists.mp i6⟩
  cases hd : t.descripcion with
  | none => exact Or.inl rfl
  | some d => exact Or.inr ⟨d, rfl, (i4 d hd).1⟩

/-- C7 at the task `"Comprar pan"` after a throwing update. -/
theorem alcanzable_invariantes_witness :
    Alcanzable hostBasico (tareaPan.actualizar hostBasico 5
      { descripcion := some (js "integral"), estado := some (js "X") }).1 ∧
    (tareaPan.actualizar hostBasico 5
      { descripcion := some (js "integral"), estado := some (js "X") }).1.titulo.length ≤ 100 :=
  have hr : Alcanzable hostBasico (tareaPan.actualizar hostBasico 5
      { descripcion := some (js "integral"), estado := some (js "X") }).1 :=
    Alcanzable.actualizar 5 _ tareaPan
      (Alcanzable.nueva 0 { titulo := .str (js "Comprar pan") } tareaPan rfl)
  ⟨hr, (alcanzable_invariantes hostBasico _ hr).2.2.1⟩

/-! ## Timestamps under update -/

/-- C8. After any call of `actualizar` the title and the creation date are the
ones before the call, whether the call returned or threw; the edit date is the
clock reading of the call when it returned and the one before the call when it
threw; and a call with every field `""` returns, changing the edit date
only. -/
theorem actualizar_marcas_de_tiempo (B : Builtins) (ahora : Int) (c : Cambios) (t : Tarea) :
    (t.actualizar B ahora c).1.titulo = t.titulo ∧
    (t.actualizar B ahora c).1.creacion = t.creacion ∧
    (t.actualizar B ahora c).1.ultimaEdicion
      = (if (t.actualizar B ahora c).2 = none then some ahora else t.ultimaEdicion) ∧
    t.actualizar B ahora
        { descripcion := some (js ""), estado := some (js ""), dificultad := some (js ""),
          vencimiento := some (js "") }
      = ({ t with ultimaEdicion := some ahora }, none) := by
  refine ⟨?_, ?_, ?_, rfl⟩
  all_goals
    rcases actualizar_cases B ahora c t with
      h1 | ⟨d1, -, h1 | ⟨e1, h1 | ⟨f1, h1 | ⟨v1, -, h1⟩⟩⟩⟩ <;>
    rw [h1] <;> simp

/-! ## The storage translator of the state -/

theorem toUpperCase_nil (B : Builtins) : toUpperCase B [] = [] := rfl

/-- C9, refuted as stated: the stored value `"in-progress"`, which is not the
code `"IN-PROGRESS"`, is mapped to `EN_CURSO` and not to `PENDIENTE`; and on
the stored number 5 the function throws a `TypeError` instead of returning a
state. -/
theorem mapEstadoDesdeJSON_ni_exacto_ni_total :
    mapEstadoDesdeJSON hostBasico (.str (js "in-progress")) = .ok .EN_CURSO ∧
    js "in-progress" ≠ js "IN-PROGRESS" ∧
    mapEstadoDesdeJSON hostBasico (.num 5) = .error .typeError := by
  decide

/-- C9, amended: on every stored value that is falsy (absent, `null`, `""`,
`0`, `false`) or a string, `mapEstadoDesdeJSON` returns a state and does not
throw; the state is `EN_CURSO`, `TERMINADA`, `CANCELADA` exactly when the value
is a string whose upper-case form is `"IN-PROGRESS"`, `"FINISHED"`,
`"CANCELED"` respectively, and `PENDIENTE` in every other case (the string
`"PENDING"` in any letter case, any other string, any falsy value); the four
codes themselves are mapped to their four states. -/
theorem mapEstadoDesdeJSON_en_cadenas (B : Builtins) (v : JSValue)
    (h : v.truthy = false ∨ ∃ s, v = .str s) :
    (∃ e, mapEstadoDesdeJSON B v = .ok e ∧
      (e = .EN_CURSO ↔ ∃ s, v = .str s ∧ toUpperCase B s = js "IN-PROGRESS") ∧
      (e = .TERMINADA ↔ ∃ s, v = .str s ∧ toUpperCase B s = js "FINISHED") ∧
      (e = .CANCELADA ↔ ∃ s, v = .str s ∧ toUpperCase B s = js "CANCELED")) ∧
    mapEstadoDesdeJSON B (.str (js "PENDING")) = .ok .PENDIENTE ∧
    mapEstadoDesdeJSON B (.str (js "IN-PROGRESS")) = .ok .EN_CURSO ∧
    mapEstadoDesdeJSON B (.str (js "FINISHED")) = .ok .TERMINADA ∧
    mapEstadoDesdeJSON B (.str (js "CANCELED")) = .ok .CANCELADA := by
  refine ⟨?_, rfl, rfl, rfl, rfl⟩
  by_cases ht : v.truthy = true
  · have hs : ∃ s, v = .str s := by
      rcases h with h | h
      · rw [h] at ht; cases ht
      · exact h
    obtain ⟨s, rfl⟩ := hs
    simp only [mapEstadoDesdeJSON, ht, Bool.not_true, Bool.false_eq_true, if_false,
      JSValue.str.injEq, exists_eq_left']
    by_cases h1 : toUpperCase B s = js "PENDING"
    · refine ⟨.PENDIENTE, by rw [if_pos h1], ?_, ?_, ?_⟩ <;> rw [h1] <;> decide
    · by_cases h2 : toUpperCase B s = js "IN-PROGRESS"
      · refine ⟨.EN_CURSO, by rw [if_neg h1, if_pos h2], ?_, ?_, ?_⟩ <;> rw [h2] <;> decide
      · by_cases h3 : toUpperCase B s = js "FINISHED"
        · refine ⟨.TERMINADA, by rw [if_neg h1, if_neg h2, if_pos h3], ?_, ?_, ?_⟩ <;> rw [h3] <;> decide
        · by_cases h4 : toUpperCase B s = js "CANCELED"
          · refine ⟨.CANCELADA, by rw [if_neg h1, if_neg h2, if_neg h3, if_pos h4], ?_, ?_, ?_⟩ <;> rw [h4] <;> decide
          · exact ⟨.PENDIENTE, by rw [if_neg h1, if_neg h2, if_neg h3, if_neg h4],
              by simp [h2], by simp [h3], by simp [h4]⟩
  · have hf : v.truthy = false := by simpa using ht
    have hne : ∀ (s : JSString) (code : JSString), code ≠ [] →
        ¬ (v = .str s ∧ toUpperCase B s = code) := by
      rintro s code hc ⟨rfl, hu⟩
      have hs : s = [] := by
        simpa [JSValue.truthy] using hf
      subst hs
      rw [toUpperCase_nil] at hu
      exact hc hu.symm
    refine ⟨.PENDIENTE, by simp [mapEstadoDesdeJSON, hf], ?_, ?_, ?_⟩
    · constructor
      · intro h; cases h
      · rintro ⟨s, hs⟩; exact absurd hs (hne s _ (by decide))
    · constructor
      · intro h; cases h
      · rintro ⟨s, hs⟩; exact absurd hs (hne s _ (by decide))
    · constructor
      · intro h; cases h
      · rintro ⟨s, hs⟩; exact absurd hs (hne s _ (by decide))

/-- C9 amended, at the stored string `"Finished"`. -/
theorem mapEstadoDesdeJSON_en_cadenas_witness :
    (JSValue.str (js "Finished")).truthy = true ∧
    mapEstadoDesdeJSON hostBasico (.str (js "Finished")) = .ok .TERMINADA ∧
    ∃ e, mapEstadoDesdeJSON hostBasico (.str (js "Finished")) = .ok e ∧
      (e = .EN_CURSO ↔ ∃ s, JSValue.str (js "Finished") = .str s ∧
        toUpperCase hostBasico s = js "IN-PROGRESS") ∧
      (e = .TERMINADA ↔ ∃ s, JSValue.str (js "Finished") = .str s ∧
        toUpperCase hostBasico s = js "FINISHED") ∧
      (e = .CANCELADA ↔ ∃ s, JSValue.str (js "Finished") = .str s ∧
        toUpperCase hostBasico s = js "CANCELED") :=
  ⟨rfl, rfl,
    (mapEstadoDesdeJSON_en_cadenas hostBasico (.str (js "Finished"))
      (Or.inr ⟨_, rfl⟩)).1⟩

/-! ## Search by title -/

theorem isPrefixOf_iff_append (q s : JSString) :
    q.isPrefixOf s = true ↔ ∃ post, s = q ++ post := by
  induction q generalizing s with
  | nil => simp
  | cons a q ih =>
    cases s with
    | nil => simp [List.isPrefixOf]
    | cons b s =>
      simp only [List.isPrefixOf, Bool.and_eq_true, beq_iff_eq, ih, List.cons_append,
        List.cons.injEq]
      constructor
      · rintro ⟨rfl, post, rfl⟩
        exact ⟨post, rfl, rfl⟩
      · rintro ⟨post, rfl, rfl⟩
        exact ⟨rfl, post, rfl⟩

theorem includes_nil (s : JSString) : includes s [] = true := by
  cases s <;> simp [includes]

/-- The method `includes` decides containment. -/
theorem includes_iff (s q : JSString) : includes s q = true ↔ Contiene s q := by
  induction s with
  | nil =>
    unfold includes Contiene
    simp only [List.isEmpty_iff]
    constructor
    · rintro rfl
      exact ⟨[], [], rfl⟩
    · rintro ⟨pre, post, h⟩
      have h2 := congrArg List.length h
      simp only [List.length_nil, List.length_append] at h2
      exact List.length_eq_zero.mp (by omega)
  | cons c r ih =>
    unfold includes
    rw [Bool.or_eq_true, isPrefixOf_iff_append, ih]
    unfold Contiene
    constructor
    · rintro (⟨post, h⟩ | ⟨pre, post, h⟩)
      · exact ⟨[], post, by simpa using h⟩
      · exact ⟨c :: pre, post, by simp [h]⟩
    · rintro ⟨pre, post, h⟩
      cases pre with
      | nil => exact Or.inl ⟨post, by simpa using h⟩
      | cons a pre =>
        simp only [List.cons_append, List.cons.injEq] at h
        exact Or.inr ⟨pre, post, h.2⟩

/-- C10, refuted as stated: the query `" pan "` returns the task titled
`"Comprar pan"`, whose title does not contain `" pan "` in any letter case
(nothing follows `pan` in the title). -/
theorem searchByTitle_recorta_la_consulta :
    TareaRepositorio.searchByTitle hostBasico { tareas := [tareaPan] } (js " pan ")
      = [tareaPan] ∧
    ¬ Contiene (toLowerCase hostBasico tareaPan.titulo) (toLowerCase hostBasico (js " pan ")) :=
  ⟨by decide, fun h => absurd ((includes_iff _ _).mpr h) (by decide)⟩

/-- C10, amended: `searchByTitle(q)` returns, in store order, exactly the tasks
whose title in lower case contains the trimmed query in lower case; the empty
query returns every task, and `"PERRO"` finds a task titled
`"Pasear al perro"`. -/
theorem searchByTitle_filtra (B : Builtins) (repo : TareaRepositorio) (q : JSString)
    (t : Tarea) :
    (∃ p : Tarea → Bool,
      (∀ x, p x = true ↔ Contiene (toLowerCase B x.titulo) (toLowerCase B (trim q))) ∧
      repo.searchByTitle B q = repo.tareas.filter p) ∧
    repo.searchByTitle B (js "") = repo.tareas ∧
    TareaRepositorio.searchByTitle B { tareas := [{ t with titulo := js "Pasear al perro" }] }
        (js "PERRO")
      = [{ t with titulo := js "Pasear al perro" }] := by
  refine ⟨⟨fun x => includes (toLowerCase B x.titulo) (toLowerCase B (trim q)), ?_, rfl⟩, ?_, ?_⟩
  · intro x
    exact includes_iff _ _
  · unfold TareaRepositorio.searchByTitle
    have h : toLowerCase B (trim (js "")) = [] := rfl
    simp only [h, includes_nil]
    exact List.filter_true _
  · have h : includes (toLowerCase B (js "Pasear al perro")) (toLowerCase B (trim (js "PERRO")))
        = true := rfl
    simp [TareaRepositorio.searchByTitle, h]

/-! ## Loading -/

theorem loadLoop_ok (B : Builtins) (reloj : Nat → Int) (xs : List JSValue) :
    ∀ (i : Nat) (c c1 : Carga), loadLoop B reloj i xs c = (c1, none) →
      c1.tareas = c.tareas ++ construidasDesde B reloj i xs ∧
      c1.cargadas = c.cargadas + (construidasDesde B reloj i xs).length ∧
      c1.cargadas + c1.errores = c.cargadas + c.errores + xs.length := by
  induction xs with
  | nil =>
    intro i c c1 h
    simp only [loadLoop, Prod.mk.injEq, and_true] at h
    subst h
    simp [construidasDesde]
  | cons item rest ih =>
    intro i c c1 h
    unfold loadLoop at h
    unfold construidasDesde
    cases ht : tareaDesdeItem B (reloj i) item with
    | ok tarea =>
      rw [ht] at h
      obtain ⟨h1, h2, h3⟩ := ih _ _ _ h
      simp only [List.length_cons] at h1 h2 h3 ⊢
      refine ⟨by rw [h1]; simp, by omega, by omega⟩
    | error e =>
      rw [ht] at h
      cases hp : item.prop (js "titulo") with
      | error e2 =>
        rw [hp] at h
        simp at h
      | ok v =>
        rw [hp] at h
        obtain ⟨h1, h2, h3⟩ := ih _ _ _ h
        simp only [List.length_cons] at h1 h2 h3 ⊢
        exact ⟨h1, h2, by omega⟩

/-- An array without `null` elements is loaded to the end: the call of `load`
does not throw. -/
theorem loadLoop_sin_null (B : Builtins) (reloj : Nat → Int) (xs : List JSValue)
    (h : ∀ x ∈ xs, ∃ v, x.prop (js "titulo") = .ok v) :
    ∀ (i : Nat) (c : Carga), (loadLoop B reloj i xs c).2 = none := by
  induction xs with
  | nil => intro i c; rfl
  | cons item rest ih =>
    intro i c
    have hrest : ∀ x ∈ rest, ∃ v, x.prop (js "titulo") = .ok v :=
      fun x hx => h x (List.mem_cons_of_mem _ hx)
    obtain ⟨v, hv⟩ := h item (List.mem_cons_self _ _)
    unfold loadLoop
    cases ht : tareaDesdeItem B (reloj i) item with
    | ok tarea => exact ih hrest _ _
    | error e =>
      simp only [hv]
      exact ih hrest _ _

/-- On an array none of whose elements is `null`, `load` returns: every
element is added or counted as skipped. -/
theorem load_sin_null (B : Builtins) (reloj : Nat → Int) (xs : List JSValue)
    (repo : TareaRepositorio) (h : ∀ x ∈ xs, x ≠ .null ∧ x ≠ .undefined) :
    ∃ n m, (repo.load B reloj (.json (.arr xs))).2 = .cargado n m := by
  have hp : ∀ x ∈ xs, ∃ v, x.prop (js "titulo") = .ok v := by
    intro x hx
    obtain ⟨h1, h2⟩ := h x hx
    cases x with
    | undefined => exact absurd rfl h2
    | null => exact absurd rfl h1
    | bool b => exact ⟨_, rfl⟩
    | num n => exact ⟨_, rfl⟩
    | str s => exact ⟨_, rfl⟩
    | date t => exact ⟨_, rfl⟩
    | arr ys => exact ⟨_, rfl⟩
    | obj kvs => exact ⟨_, rfl⟩
  have hl := loadLoop_sin_null B reloj xs hp 0
    { tareas := repo.tareas, cargadas := 0, errores := 0 }
  unfold TareaRepositorio.load
  simp only
  cases hc : loadLoop B reloj 0 xs { tareas := repo.tareas, cargadas := 0, errores := 0 } with
  | mk c1 r =>
    rw [hc] at hl
    simp only at hl
    subst hl
    exact ⟨c1.cargadas, c1.errores, rfl⟩

/-- C3, refuted by the code: on the array `[{ "titulo": "Leer" }, null]` the
call of `load` throws a `TypeError` (the warning of the inner handler reads
`item.titulo` of `null`), after the first element has been added; the `null`
element is neither skipped nor counted. -/
theorem load_falla_con_elemento_null :
    TareaRepositorio.load hostBasico (fun _ => 3)
        (.json (.arr [.obj [(js "titulo", .str (js "Leer"))], .null]))
        TareaRepositorio.nuevo
      = ({ tareas := [tareaLeer] }, .fallo .typeError) := by
  decide

/-- C4, refuted as stated: loading the array `[{ "titulo": "Leer" }]` into a
repository that holds the task `"Comprar pan"` returns, and the repository then
holds `"Comprar pan"` followed by `"Leer"`. -/
theorem load_conserva_las_anteriores :
    TareaRepositorio.load hostBasico (fun _ => 3)
        (.json (.arr [.obj [(js "titulo", .str (js "Leer"))]]))
        { tareas := [tareaPan] }
      = ({ tareas := [tareaPan, tareaLeer] }, .cargado 1 0) := by
  decide

/-- C4, amended: when `load` of a file holding a JSON array returns, the
repository holds the tasks it held before the call followed by the tasks built
from the valid elements of the array, in array order; the first counter is the
number of tasks added and the two counters add up to the length of the
array. -/
theorem load_agrega_al_final (B : Builtins) (reloj : Nat → Int) (xs : List JSValue)
    (repo : TareaRepositorio) (n m : Nat)
    (h : (repo.load B reloj (.json (.arr xs))).2 = .cargado n m) :
    (repo.load B reloj (.json (.arr xs))).1.tareas
      = repo.tareas ++ construidasDesde B reloj 0 xs ∧
    n = (construidasDesde B reloj 0 xs).length ∧
    n + m = xs.length := by
  unfold TareaRepositorio.load at h ⊢
  simp only at h ⊢
  cases hl : loadLoop B reloj 0 xs { tareas := repo.tareas, cargadas := 0, errores := 0 } with
  | mk c1 r =>
    cases r with
    | some e =>
      rw [hl] at h
      simp at h
    | none =>
      rw [hl] at h
      simp only [ResultadoCarga.cargado.injEq] at h
      obtain ⟨h1, h2, h3⟩ := loadLoop_ok B reloj xs 0 _ _ hl
      simp only [Nat.zero_add] at h2 h3
      obtain ⟨rfl, rfl⟩ := h
      exact ⟨h1, h2, h3⟩

/-- C4 amended, at the input of `load_conserva_las_anteriores`. -/
theorem load_agrega_al_final_witness :
    (TareaRepositorio.load hostBasico (fun _ => 3)
        (.json (.arr [.obj [(js "titulo", .str (js "Leer"))]]))
        { tareas := [tareaPan] }).2 = .cargado 1 0 ∧
    (TareaRepositorio.load hostBasico (fun _ => 3)
        (.json (.arr [.obj [(js "titulo", .str (js "Leer"))]]))
        { tareas := [tareaPan] }).1.tareas
      = [tareaPan] ++ construidasDesde hostBasico (fun _ => 3) 0
          [.obj [(js "titulo", .str (js "Leer"))]] :=
  ⟨by decide,
    (load_agrega_al_final hostBasico (fun _ => 3) [.obj [(js "titulo", .str (js "Leer"))]]
      { tareas := [tareaPan] } 1 0 (by decide)).1⟩

/-! ## Saving and loading back -/

/-- C1, refuted by the code: the task `"Comprar pan"` updated with the
description `"  "` (two spaces) holds the empty string as its description;
`save` writes it and `load` of what was written builds a task whose
description is absent. -/
theorem guardarYCargar_pierde_descripcion_vacia :
    Tarea.nueva hostBasico 0 { titulo := .str (js "Comprar pan") } = .ok tareaPan ∧
    tareaPan.actualizar hostBasico 1 { descripcion := some (js "  ") }
      = ({ tareaPan with descripcion := some (js ""), ultimaEdicion := some 1 }, none) ∧
    guardarYCargar hostBasico (fun _ => 2)
        { tareas := [{ tareaPan with descripcion := some (js ""), ultimaEdicion := some 1 }] }
      = some ({ tareas := [{ tareaPan with descripcion := none, ultimaEdicion := some 1 }] },
          .cargado 1 0) := by
  decide


/-! ## The round trip apart from the empty description -/

theorem replicate_all_marcas (n : Nat) :
    (List.replicate n 49).all (fun c => c == 49) = true := by
  simp [List.all_eq_true]

/-- The host of the concrete runs reads back the dates it writes. -/
theorem hostBasico_conforme : hostBasico.FechasConformes := by
  constructor
  · intro t
    show leerMarcas (escribirMarcas t) = some t
    unfold escribirMarcas
    by_cases h : t < 0
    · rw [if_pos h]
      have hemp : (List.replicate t.natAbs 49).isEmpty = false := by
        cases hn : t.natAbs with
        | zero => omega
        | succ k => rfl
      simp only [leerMarcas, replicate_all_marcas, hemp, Bool.not_false, Bool.and_self,
        if_true, List.length_replicate]
      congr 1
      rw [Int.ofNat_eq_coe]
      omega
    · rw [if_neg h]
      simp only [leerMarcas, replicate_all_marcas, if_true, List.length_replicate]
      congr 1
      rw [Int.ofNat_eq_coe]
      omega
  · intro t
    show escribirMarcas t ≠ []
    simp [escribirMarcas]

theorem prop_de_objeto_guardado (a b c d e f g : JSValue) :
    (JSValue.obj [(js "titulo", a), (js "descripcion", b), (js "estado", c),
      (js "creacion", d), (js "ultimaEdicion", e), (js "vencimiento", f),
      (js "dificultad", g)]).prop (js "titulo") = .ok a ∧
    (JSValue.obj [(js "titulo", a), (js "descripcion", b), (js "estado", c),
      (js "creacion", d), (js "ultimaEdicion", e), (js "vencimiento", f),
      (js "dificultad", g)]).prop (js "descripcion") = .ok b ∧
    (JSValue.obj [(js "titulo", a), (js "descripcion", b), (js "estado", c),
      (js "creacion", d), (js "ultimaEdicion", e), (js "vencimiento", f),
      (js "dificultad", g)]).prop (js "estado") = .ok c ∧
    (JSValue.obj [(js "titulo", a), (js "descripcion", b), (js "estado", c),
      (js "creacion", d), (js "ultimaEdicion", e), (js "vencimiento", f),
      (js "dificultad", g)]).prop (js "creacion") = .ok d ∧
    (JSValue.obj [(js "titulo", a), (js "descripcion", b), (js "estado", c),
      (js "creacion", d), (js "ultimaEdicion", e), (js "vencimiento", f),
      (js "dificultad", g)]).prop (js "ultimaEdicion") = .ok e ∧
    (JSValue.obj [(js "titulo", a), (js "descripcion", b), (js "estado", c),
      (js "creacion", d), (js "ultimaEdicion", e), (js "vencimiento", f),
      (js "dificultad", g)]).prop (js "vencimiento") = .ok f ∧
    (JSValue.obj [(js "titulo", a), (js "descripcion", b), (js "estado", c),
      (js "creacion", d), (js "ultimaEdicion", e), (js "vencimiento", f),
      (js "dificultad", g)]).prop (js "dificultad") = .ok g :=
  ⟨rfl, rfl, rfl, rfl, rfl, rfl, rfl⟩

theorem mapEstado_ida_y_vuelta (B : Builtins) (e : Estado) :
    mapEstadoDesdeJSON B (.str (mapEstadoToJSON e)) = .ok e := by
  cases e <;> rfl

theorem mapDificultad_ida_y_vuelta (B : Builtins) (d : Dificultad) :
    mapDificultadDesdeJSON B (.num (mapDificultadToJSON d)) = .ok d := by
  cases d <;> rfl


theorem fechaDesdeISO (B : Builtins) (hB : B.FechasConformes) (t : Int) :
    (JSValue.str (B.toISOString t)).truthy = true ∧
    newDate B (.str (B.toISOString t)) = .ok (some t) := by
  constructor
  · have := hB.iso_no_vacia t
    cases h : B.toISOString t with
    | nil => exact absurd h this
    | cons a r => rfl
  · show Except.ok (B.dateParse (B.toISOString t)) = _
    rw [hB.parse_iso]

/-- What `save` writes for a task that satisfies the invariant and whose
description is not the empty string is an object from which `load` builds the
same task. -/
theorem tareaDesdeItem_guardada (B : Builtins) (hB : B.FechasConformes) (ahora : Int)
    (t : Tarea) (hi : t.Invariante) (hd : t.descripcion ≠ some []) :
    ∃ x, tareaParaGuardar B t = .ok x ∧ tareaDesdeItem B ahora x = .ok t ∧
      ∃ v, x.prop (js "titulo") = .ok v := by
  obtain ⟨ti, de, es, di, cr, ue, ve⟩ := t
  obtain ⟨i1, i2, i3, i4, i5, i6, i7⟩ := hi
  simp only at i1 i2 i3 i4 i5 i6 i7 hd
  obtain ⟨c, rfl⟩ := Option.isSome_iff_exists.mp i5
  obtain ⟨u, rfl⟩ := Option.isSome_iff_exists.mp i6
  have hti : tituloValidado (.str ti) = .ok ti :=
    (tituloValidado_ok_iff _ _).mpr ⟨ti, rfl, by rw [i1]; exact i2, by rw [i1]; exact i3, i1.symm⟩
  have hde : descripcionValidada (descripcionParaGuardar de) = .ok de := by
    cases de with
    | none => rfl
    | some d =>
      obtain ⟨hl, ht⟩ := i4 d rfl
      have hne : d ≠ [] := fun h => hd (by rw [h])
      have hpos : (trim d).length > 0 := by
        rw [ht]
        exact List.length_pos.mpr hne
      simp only [descripcionParaGuardar, descripcionValidada]
      rw [if_neg (show ¬ d.length > 500 by omega),
        if_pos ⟨by simpa using hne, hpos⟩, ht]
  obtain ⟨hc1, hc2⟩ := fechaDesdeISO B hB c
  obtain ⟨hu1, hu2⟩ := fechaDesdeISO B hB u
  have hcr : fechaCreacion B ahora (.str (B.toISOString c)) = .ok (some c) := by
    unfold fechaCreacion
    rw [if_pos hc1, hc2]
  have hue : fechaUltimaEdicion B (some c) (.str (B.toISOString u)) = .ok (some u) := by
    unfold fechaUltimaEdicion
    rw [if_pos hu1, hu2]
  have hve : ∃ y, vencimientoParaGuardar B ve = .ok y ∧ fechaVencimiento B y = .ok ve := by
    cases ve with
    | none => exact ⟨.null, rfl, rfl⟩
    | some d =>
      obtain ⟨f, rfl⟩ := Option.isSome_iff_exists.mp (i7 d rfl)
      obtain ⟨hf1, hf2⟩ := fechaDesdeISO B hB f
      refine ⟨.str (B.toISOString f), rfl, ?_⟩
      unfold fechaVencimiento
      rw [if_pos hf1, hf2]
      rfl
  obtain ⟨y, hy1, hy2⟩ := hve
  obtain ⟨p1, p2, p3, p4, p5, p6, p7⟩ := prop_de_objeto_guardado (.str ti)
    (descripcionParaGuardar de) (.str (mapEstadoToJSON es)) (.str (B.toISOString c))
    (.str (B.toISOString u)) y (.num (mapDificultadToJSON di))
  refine ⟨.obj [(js "titulo", .str ti), (js "descripcion", descripcionParaGuardar de),
    (js "estado", .str (mapEstadoToJSON es)), (js "creacion", .str (B.toISOString c)),
    (js "ultimaEdicion", .str (B.toISOString u)), (js "vencimiento", y),
    (js "dificultad", .num (mapDificultadToJSON di))], ?_, ?_, ⟨_, p1⟩⟩
  · simp only [tareaParaGuardar, toISOString, bind, Except.bind, pure, Except.pure, hy1]
  · simp only [tareaDesdeItem, bind, Except.bind, p1, p2, p3, p4, p5, p6, p7,
      mapEstado_ida_y_vuelta, mapDificultad_ida_y_vuelta]
    exact nueva_ok_intro hti hde hcr hue hy2

theorem loadLoop_guardadas (B : Builtins) (hB : B.FechasConformes) (reloj : Nat → Int)
    (ts : List Tarea) (h : ∀ t ∈ ts, t.Invariante ∧ t.descripcion ≠ some []) :
    ∃ xs, tareasParaGuardar B ts = .ok xs ∧
      ∀ (i : Nat) (c : Carga), loadLoop B reloj i xs c =
        ({ tareas := c.tareas ++ ts, cargadas := c.cargadas + ts.length,
           errores := c.errores }, none) := by
  induction ts with
  | nil =>
    refine ⟨[], rfl, ?_⟩
    intro i c
    simp [loadLoop]
  | cons t rest ih =>
    obtain ⟨xs, hxs, hloop⟩ := ih (fun t ht => h t (List.mem_cons_of_mem _ ht))
    obtain ⟨hinv, hdesc⟩ := h t (List.mem_cons_self _ _)
    have hx : ∀ a, ∃ x, tareaParaGuardar B t = .ok x ∧ tareaDesdeItem B a x = .ok t ∧
        ∃ v, x.prop (js "titulo") = .ok v :=
      fun a => tareaDesdeItem_guardada B hB a t hinv hdesc
    obtain ⟨x, hx1, -, -⟩ := hx 0
    refine ⟨x :: xs, ?_, ?_⟩
    · simp only [tareasParaGuardar, bind, Except.bind, pure, Except.pure, hx1, hxs]
    · intro i c
      obtain ⟨x2, hx2, hx3, -⟩ := hx (reloj i)
      rw [hx1] at hx2
      cases hx2
      unfold loadLoop
      rw [hx3]
      simp only [hloop, List.append_assoc, List.singleton_append, List.length_cons]
      congr 2
      omega

/-- The round trip holds for every repository of reachable tasks none of which
has the empty string as its description: `save` writes the file and `load` of
what was written, into a fresh repository, rebuilds the same tasks in the same
order, none skipped. -/
theorem guardarYCargar_identidad (B : Builtins) (hB : B.FechasConformes) (reloj : Nat → Int)
    (repo : TareaRepositorio)
    (h : ∀ t ∈ repo.tareas, Alcanzable B t ∧ t.descripcion ≠ some []) :
    guardarYCargar B reloj repo = some (repo, .cargado repo.tareas.length 0) := by
  obtain ⟨xs, hxs, hloop⟩ := loadLoop_guardadas B hB reloj repo.tareas
    (fun t ht => ⟨alcanzable_invariante (h t ht).1, (h t ht).2⟩)
  unfold guardarYCargar TareaRepositorio.save
  rw [hxs]
  simp only [Option.map_some', TareaRepositorio.load, TareaRepositorio.nuevo, hloop,
    List.nil_append, Nat.zero_add]

/-- The round trip at the repository of the two tasks `"Comprar pan"` and
`"Leer"`. -/
theorem guardarYCargar_identidad_witness :
    guardarYCargar hostBasico (fun _ => 2) { tareas := [tareaPan, tareaLeer] }
      = some ({ tareas := [tareaPan, tareaLeer] }, .cargado 2 0) :=
  guardarYCargar_identidad hostBasico hostBasico_conforme (fun _ => 2)
    { tareas := [tareaPan, tareaLeer] }
    (by
      intro t ht
      simp only [List.mem_cons, List.mem_singleton, List.not_mem_nil, or_false] at ht
      rcases ht with rfl | rfl
      · exact ⟨Alcanzable.nueva 0 { titulo := .str (js "Comprar pan") } tareaPan rfl,
          by decide⟩
      · exact ⟨Alcanzable.nueva 3 { titulo := .str (js "Leer") } tareaLeer rfl, by decide⟩)


/-! ## The storage translator of the difficulty -/

/-- C12, refuted as stated: the stored string `"2"`, which is not one of the
numbers 1, 2, 3, is mapped to `MEDIO` and not to `FACIL`, so the round trip
gives 2 and not 1. -/
theorem mapDificultadDesdeJSON_convierte_cadenas :
    mapDificultadDesdeJSON hostBasico (.str (js "2")) = .ok Dificultad.MEDIO ∧
    (mapDificultadDesdeJSON hostBasico (.str (js "2"))).map mapDificultadToJSON = .ok 2 := by
  decide

theorem mapDificultadDesdeJSON_num (B : Builtins) (n : Int) :
    mapDificultadDesdeJSON B (.num n)
      = .ok (if n = 2 then Dificultad.MEDIO else if n = 3 then .DIFICIL else .FACIL) := by
  unfold mapDificultadDesdeJSON
  by_cases h0 : n = 0
  · subst h0
    rfl
  · have ht : (JSValue.num n).truthy = true := by
      simp [JSValue.truthy, h0]
    simp only [ht, Bool.not_true, Bool.false_eq_true, if_false, toNumber, bind, Except.bind,
      pure, Except.pure, Option.some.injEq]
    by_cases h1 : n = 1
    · subst h1
      rfl
    · rw [if_neg h1]
      by_cases h2 : n = 2
      · rw [if_pos h2, if_pos h2]
      · rw [if_neg h2, if_neg h2]
        by_cases h3 : n = 3
        · rw [if_pos h3, if_pos h3]
        · rw [if_neg h3, if_neg h3]

theorem mapDificultadDesdeJSON_str (B : Builtins) (s : JSString) :
    mapDificultadDesdeJSON B (.str s)
      = (match stringToNumber B s with
        | some k => mapDificultadDesdeJSON B (.num k)
        | none => .ok .FACIL) := by
  by_cases hs : s = []
  · subst hs
    rfl
  · have ht : (JSValue.str s).truthy = true := by
      simp [JSValue.truthy, hs]
    cases hk : stringToNumber B s with
    | none =>
      simp [mapDificultadDesdeJSON, ht, toNumber, bind, Except.bind, pure, Except.pure, hk]
    | some k =>
      simp only [mapDificultadDesdeJSON_num]
      simp only [mapDificultadDesdeJSON, ht, Bool.not_true, Bool.false_eq_true, if_false,
        toNumber, bind, Except.bind, pure, Except.pure, hk, Option.some.injEq]
      by_cases h1 : k = 1
      · subst h1
        rfl
      · rw [if_neg h1]
        by_cases h2 : k = 2
        · rw [if_pos h2, if_pos h2]
        · rw [if_neg h2, if_neg h2]
          by_cases h3 : k = 3
          · rw [if_pos h3, if_pos h3]
          · rw [if_neg h3, if_neg h3]

/-- C12, amended: the stored numbers 1, 2, 3 are mapped to `FACIL`, `MEDIO`,
`DIFICIL` and back to themselves; every other stored number, `null` and an
absent value are mapped to `FACIL`, so their round trip gives 1; a stored
string is first converted with `Number`: it is mapped like the number it
converts to, and to `FACIL` when it converts to no integer (so `"2"` and `"3"`
are mapped to `MEDIO` and `DIFICIL`). -/
theorem mapDificultadDesdeJSON_codigos (B : Builtins) (n : Int) (s : JSString) :
    mapDificultadDesdeJSON B (.num 1) = .ok .FACIL ∧
    mapDificultadDesdeJSON B (.num 2) = .ok Dificultad.MEDIO ∧
    mapDificultadDesdeJSON B (.num 3) = .ok .DIFICIL ∧
    mapDificultadDesdeJSON B (.num n)
      = .ok (if n = 2 then Dificultad.MEDIO else if n = 3 then .DIFICIL else .FACIL) ∧
    (mapDificultadDesdeJSON B (.num n)).map mapDificultadToJSON
      = .ok (if n = 1 ∨ n = 2 ∨ n = 3 then n else 1) ∧
    mapDificultadDesdeJSON B .null = .ok .FACIL ∧
    mapDificultadDesdeJSON B .undefined = .ok .FACIL ∧
    mapDificultadDesdeJSON B (.str s)
      = (match stringToNumber B s with
        | some k => mapDificultadDesdeJSON B (.num k)
        | none => .ok .FACIL) ∧
    mapDificultadDesdeJSON B (.str (js "2")) = .ok Dificultad.MEDIO ∧
    mapDificultadDesdeJSON B (.str (js "3")) = .ok .DIFICIL := by
  refine ⟨rfl, rfl, rfl, mapDificultadDesdeJSON_num B n, ?_, rfl, rfl,
    mapDificultadDesdeJSON_str B s, rfl, rfl⟩
  rw [mapDificultadDesdeJSON_num]
  by_cases h2 : n = 2
  · subst h2
    rfl
  · by_cases h3 : n = 3
    · subst h3
      rfl
    · by_cases h1 : n = 1
      · subst h1
        rfl
      · rw [if_neg h2, if_neg h3, if_neg (by omega)]
        rfl

/-! ## The state through user input and storage -/

/-- C13. Each of the user codes `P`, `E`, `T`, `C`, in upper or lower case, is
translated by `EstadoDesdeEntrada` to the state that carries that code; each
state written by `mapEstadoToJSON` is read back by `mapEstadoDesdeJSON` as the
same state; and two states with the same storage code are the same state. -/
theorem estado_ida_y_vuelta (B : Builtins) (e e2 : Estado) :
    EstadoDesdeEntrada B e.code = some e ∧
    EstadoDesdeEntrada B (e.code.map lowerAscii) = some e ∧
    mapEstadoDesdeJSON B (.str (mapEstadoToJSON e)) = .ok e ∧
    (mapEstadoToJSON e = mapEstadoToJSON e2 ↔ e = e2) ∧
    EstadoDesdeEntrada B (js "P") = some .PENDIENTE ∧
    EstadoDesdeEntrada B (js "p") = some .PENDIENTE ∧
    EstadoDesdeEntrada B (js "E") = some .EN_CURSO ∧
    EstadoDesdeEntrada B (js "e") = some .EN_CURSO ∧
    EstadoDesdeEntrada B (js "T") = some .TERMINADA ∧
    EstadoDesdeEntrada B (js "t") = some .TERMINADA ∧
    EstadoDesdeEntrada B (js "C") = some .CANCELADA ∧
    EstadoDesdeEntrada B (js "c") = some .CANCELADA := by
  cases e <;> cases e2 <;>
    exact ⟨rfl, rfl, rfl, by decide, rfl, rfl, rfl, rfl, rfl, rfl, rfl, rfl⟩


/-! ## The two date formats -/

/-- C11, refuted by the code: where local time is three hours behind UTC,
`parseFecha("2025-12-01")` is midnight UTC of 1 December 2025 (21:00 of
30 November, local time) and `parseFecha("01/12/2025")` is midnight local time
of 1 December 2025, three hours later; with the time `18:00` the two formats
give the same instant, 18:00 local time. -/
theorem parseFecha_solo_fecha_en_utc :
    parseFecha (hostZona (-180)) (js "2025-12-01") = some 1764547200000 ∧
    parseFecha (hostZona (-180)) (js "01/12/2025") = some 1764558000000 ∧
    parseFecha (hostZona (-180)) (js "2025-12-01 18:00") = some 1764622800000 ∧
    parseFecha (hostZona (-180)) (js "01/12/2025 18:00") = some 1764622800000 := by
  decide


theorem isWhiteSpace_of_isDigit (c : Nat) (h : isDigit c = true) : isWhiteSpace c = false := by
  simp only [isDigit, Bool.and_eq_true, decide_eq_true_eq] at h
  obtain ⟨h1, h2⟩ := h
  interval_cases c <;> rfl

theorem trim_sin_blancos (c e : Nat) (mid : JSString) (hc : isWhiteSpace c = false)
    (he : isWhiteSpace e = false) : trim (c :: (mid ++ [e])) = c :: (mid ++ [e]) := by
  have h1 : trimStart (c :: (mid ++ [e])) = c :: (mid ++ [e]) := by
    unfold trimStart
    rw [List.dropWhile_cons, if_neg (by simp [hc])]
  have h2 : trimEnd (c :: (mid ++ [e])) = c :: (mid ++ [e]) := by
    unfold trimEnd
    have hr : (c :: (mid ++ [e])).reverse = e :: (mid.reverse ++ [c]) := by simp
    rw [hr, List.dropWhile_cons, if_neg (by simp [he]), ← hr, List.reverse_reverse]
  unfold trim
  rw [h1, h2]


theorem isDigit_bounds (c : Nat) (h : isDigit c = true) : 48 ≤ c ∧ c ≤ 57 := by
  simpa [isDigit] using h

theorem parseFecha_iso_con_hora (z : Int) (y1 y2 y3 y4 m1 m2 d1 d2 h1 h2 n1 n2 : Nat)
    (hd : ∀ c ∈ [y1, y2, y3, y4, m1, m2, d1, d2, h1, h2, n1, n2], isDigit c = true)
    (hmes : 1 ≤ parseIntDigits [m1, m2] ∧ parseIntDigits [m1, m2] ≤ 12)
    (hdia : 1 ≤ parseIntDigits [d1, d2] ∧
      parseIntDigits [d1, d2] ≤ daysInMonth (parseIntDigits [y1, y2, y3, y4])
        (parseIntDigits [m1, m2]))
    (hhora : parseIntDigits [h1, h2] ≤ 23) (hmin : parseIntDigits [n1, n2] ≤ 59) :
    parseFecha (hostZona z) [y1, y2, y3, y4, 45, m1, m2, 45, d1, d2, 32, h1, h2, 58, n1, n2]
      = timeClip (makeDate
          (makeDay (parseIntDigits [y1, y2, y3, y4]) (parseIntDigits [m1, m2] - 1)
            (parseIntDigits [d1, d2]))
          (makeTime (parseIntDigits [h1, h2]) (parseIntDigits [n1, n2]) 0 0) - z * 60000) := by
  have a1 := hd y1 (by simp)
  have a2 := hd y2 (by simp)
  have a3 := hd y3 (by simp)
  have a4 := hd y4 (by simp)
  have a5 := hd m1 (by simp)
  have a6 := hd m2 (by simp)
  have a7 := hd d1 (by simp)
  have a8 := hd d2 (by simp)
  have a9 := hd h1 (by simp)
  have a10 := hd h2 (by simp)
  have a11 := hd n1 (by simp)
  have a12 := hd n2 (by simp)
  have b1 := isDigit_bounds _ a1
  have b2 := isDigit_bounds _ a2
  have b3 := isDigit_bounds _ a3
  have b4 := isDigit_bounds _ a4
  have b5 := isDigit_bounds _ a5
  have b6 := isDigit_bounds _ a6
  have b7 := isDigit_bounds _ a7
  have b8 := isDigit_bounds _ a8
  have e1 : y1 ≠ 32 := by omega
  have e2 : y2 ≠ 32 := by omega
  have e3 : y3 ≠ 32 := by omega
  have e4 : y4 ≠ 32 := by omega
  have e5 : m1 ≠ 32 := by omega
  have e6 : m2 ≠ 32 := by omega
  have e7 : d1 ≠ 32 := by omega
  have e8 : d2 ≠ 32 := by omega
  have e9 : y3 ≠ 47 := by omega
  have htrim : trim [y1, y2, y3, y4, 45, m1, m2, 45, d1, d2, 32, h1, h2, 58, n1, n2]
      = [y1, y2, y3, y4, 45, m1, m2, 45, d1, d2, 32, h1, h2, 58, n1, n2] :=
    trim_sin_blancos y1 n2 [y2, y3, y4, 45, m1, m2, 45, d1, d2, 32, h1, h2, 58, n1]
      (isWhiteSpace_of_isDigit _ a1) (isWhiteSpace_of_isDigit _ a12)
  have hiso : matchISO [y1, y2, y3, y4, 45, m1, m2, 45, d1, d2, 32, h1, h2, 58, n1, n2]
      = true := by
    simp [matchISO, digitAt, unitAt, a1, a2, a3, a4, a5, a6, a7, a8, a9, a10, a11, a12]
  have hrep : replaceSpaceByT [y1, y2, y3, y4, 45, m1, m2, 45, d1, d2, 32, h1, h2, 58, n1, n2]
      = [y1, y2, y3, y4, 45, m1, m2, 45, d1, d2, 84, h1, h2, 58, n1, n2] := by
    simp [replaceSpaceByT, e1, e2, e3, e4, e5, e6, e7, e8]
  have hisoT : matchISO [y1, y2, y3, y4, 45, m1, m2, 45, d1, d2, 84, h1, h2, 58, n1, n2]
      = true := by
    simp [matchISO, digitAt, unitAt, a1, a2, a3, a4, a5, a6, a7, a8, a9, a10, a11, a12]
  have hparse : dateParseZona z [y1, y2, y3, y4, 45, m1, m2, 45, d1, d2, 84, h1, h2, 58, n1, n2]
      = timeClip (makeDate
          (makeDay (parseIntDigits [y1, y2, y3, y4]) (parseIntDigits [m1, m2] - 1)
            (parseIntDigits [d1, d2]))
          (makeTime (parseIntDigits [h1, h2]) (parseIntDigits [n1, n2]) 0 0) - z * 60000) := by
    unfold dateParseZona
    simp only [hisoT, unitAt, List.take, List.drop, List.length_cons, List.length_nil]
    simp [hmes, hdia, hhora, hmin]
  have hspace : dateParseZona z
      [y1, y2, y3, y4, 45, m1, m2, 45, d1, d2, 32, h1, h2, 58, n1, n2] = none := by
    unfold dateParseZona
    simp [unitAt]
  have hdmy : matchDMY [y1, y2, y3, y4, 45, m1, m2, 45, d1, d2, 32, h1, h2, 58, n1, n2]
      = none := by
    simp [matchDMY, digitAt, unitAt, e9]
  unfold parseFecha
  simp only [htrim, hiso, hrep, List.isEmpty_cons, Bool.false_eq_true, if_false, if_true]
  show (match dateParseZona z _ with
    | some d => some d
    | none => _) = _
  rw [hparse]
  cases hc : timeClip _ with
  | some d => rfl
  | none =>
    simp only [hdmy]
    exact hspace


theorem parseFecha_dmy_con_hora (z : Int) (y1 y2 y3 y4 m1 m2 d1 d2 h1 h2 n1 n2 : Nat)
    (hd : ∀ c ∈ [y1, y2, y3, y4, m1, m2, d1, d2, h1, h2, n1, n2], isDigit c = true) :
    parseFecha (hostZona z) [d1, d2, 47, m1, m2, 47, y1, y2, y3, y4, 32, h1, h2, 58, n1, n2]
      = dateLocalZona z (parseIntDigits [y1, y2, y3, y4]) (parseIntDigits [m1, m2] - 1)
          (parseIntDigits [d1, d2]) (parseIntDigits [h1, h2]) (parseIntDigits [n1, n2]) := by
  have a1 := hd y1 (by simp)
  have a2 := hd y2 (by simp)
  have a3 := hd y3 (by simp)
  have a4 := hd y4 (by simp)
  have a5 := hd m1 (by simp)
  have a6 := hd m2 (by simp)
  have a7 := hd d1 (by simp)
  have a8 := hd d2 (by simp)
  have a9 := hd h1 (by simp)
  have a10 := hd h2 (by simp)
  have a11 := hd n1 (by simp)
  have a12 := hd n2 (by simp)
  have w32 : isWhiteSpace 32 = true := rfl
  have wh : isWhiteSpace h1 = false := isWhiteSpace_of_isDigit _ a9
  have htrim : trim [d1, d2, 47, m1, m2, 47, y1, y2, y3, y4, 32, h1, h2, 58, n1, n2]
      = [d1, d2, 47, m1, m2, 47, y1, y2, y3, y4, 32, h1, h2, 58, n1, n2] :=
    trim_sin_blancos d1 n2 [d2, 47, m1, m2, 47, y1, y2, y3, y4, 32, h1, h2, 58, n1]
      (isWhiteSpace_of_isDigit _ a7) (isWhiteSpace_of_isDigit _ a12)
  have hiso : matchISO [d1, d2, 47, m1, m2, 47, y1, y2, y3, y4, 32, h1, h2, 58, n1, n2]
      = false := by
    simp [matchISO, digitAt, unitAt, isDigit]
  have hdmy : matchDMY [d1, d2, 47, m1, m2, 47, y1, y2, y3, y4, 32, h1, h2, 58, n1, n2]
      = some ([d1, d2], [m1, m2], [y1, y2, y3, y4], some ([h1, h2], [n1, n2])) := by
    simp [matchDMY, digitAt, unitAt, a1, a2, a3, a4, a5, a6, a7, a8, a9, a10, a11, a12,
      List.dropWhile, w32, wh]
  have hparse : dateParseZona z
      [d1, d2, 47, m1, m2, 47, y1, y2, y3, y4, 32, h1, h2, 58, n1, n2] = none := by
    unfold dateParseZona
    simp [hiso]
  unfold parseFecha
  simp only [htrim, hiso, hdmy, List.isEmpty_cons, Bool.false_eq_true, if_false]
  show (match dateLocalZona z _ _ _ _ _ with
    | some d => some d
    | none => dateParseZona z _) = _
  cases hc : dateLocalZona z (parseIntDigits [y1, y2, y3, y4]) (parseIntDigits [m1, m2] - 1)
      (parseIntDigits [d1, d2]) (parseIntDigits [h1, h2]) (parseIntDigits [n1, n2]) with
  | some d => rfl
  | none => exact hparse

theorem parseFecha_iso_sin_hora (z : Int) (y1 y2 y3 y4 m1 m2 d1 d2 : Nat)
    (hd : ∀ c ∈ [y1, y2, y3, y4, m1, m2, d1, d2], isDigit c = true)
    (hmes : 1 ≤ parseIntDigits [m1, m2] ∧ parseIntDigits [m1, m2] ≤ 12)
    (hdia : 1 ≤ parseIntDigits [d1, d2] ∧
      parseIntDigits [d1, d2] ≤ daysInMonth (parseIntDigits [y1, y2, y3, y4])
        (parseIntDigits [m1, m2])) :
    parseFecha (hostZona z) [y1, y2, y3, y4, 45, m1, m2, 45, d1, d2]
      = timeClip (makeDate
          (makeDay (parseIntDigits [y1, y2, y3, y4]) (parseIntDigits [m1, m2] - 1)
            (parseIntDigits [d1, d2])) 0) := by
  have a1 := hd y1 (by simp)
  have a2 := hd y2 (by simp)
  have a3 := hd y3 (by simp)
  have a4 := hd y4 (by simp)
  have a5 := hd m1 (by simp)
  have a6 := hd m2 (by simp)
  have a7 := hd d1 (by simp)
  have a8 := hd d2 (by simp)
  have b1 := isDigit_bounds _ a1
  have b2 := isDigit_bounds _ a2
  have b3 := isDigit_bounds _ a3
  have b4 := isDigit_bounds _ a4
  have b5 := isDigit_bounds _ a5
  have b6 := isDigit_bounds _ a6
  have b7 := isDigit_bounds _ a7
  have b8 := isDigit_bounds _ a8
  have e1 : y1 ≠ 32 := by omega
  have e2 : y2 ≠ 32 := by omega
  have e3 : y3 ≠ 32 := by omega
  have e4 : y4 ≠ 32 := by omega
  have e5 : m1 ≠ 32 := by omega
  have e6 : m2 ≠ 32 := by omega
  have e7 : d1 ≠ 32 := by omega
  have e8 : d2 ≠ 32 := by omega
  have e9 : y3 ≠ 47 := by omega
  have htrim : trim [y1, y2, y3, y4, 45, m1, m2, 45, d1, d2]
      = [y1, y2, y3, y4, 45, m1, m2, 45, d1, d2] :=
    trim_sin_blancos y1 d2 [y2, y3, y4, 45, m1, m2, 45, d1]
      (isWhiteSpace_of_isDigit _ a1) (isWhiteSpace_of_isDigit _ a8)
  have hiso : matchISO [y1, y2, y3, y4, 45, m1, m2, 45, d1, d2] = true := by
    simp [matchISO, digitAt, unitAt, a1, a2, a3, a4, a5, a6, a7, a8]
  have hrep : replaceSpaceByT [y1, y2, y3, y4, 45, m1, m2, 45, d1, d2]
      = [y1, y2, y3, y4, 45, m1, m2, 45, d1, d2] := by
    simp [replaceSpaceByT, e1, e2, e3, e4, e5, e6, e7, e8]
  have hparse : dateParseZona z [y1, y2, y3, y4, 45, m1, m2, 45, d1, d2]
      = timeClip (makeDate
          (makeDay (parseIntDigits [y1, y2, y3, y4]) (parseIntDigits [m1, m2] - 1)
            (parseIntDigits [d1, d2])) 0) := by
    unfold dateParseZona
    simp only [hiso, List.take, List.drop, List.length_cons, List.length_nil]
    simp [hmes, hdia]
  have hdmy : matchDMY [y1, y2, y3, y4, 45, m1, m2, 45, d1, d2] = none := by
    simp [matchDMY, digitAt, unitAt, e9]
  unfold parseFecha
  simp only [htrim, hiso, hrep, List.isEmpty_cons, Bool.false_eq_true, if_false, if_true]
  show (match dateParseZona z _ with
    | some d => some d
    | none => _) = _
  rw [hparse]
  cases hc : timeClip _ with
  | some d => rfl
  | none =>
    simp only [hdmy]
    show dateParseZona z _ = none
    rw [hparse]
    exact hc

theorem parseFecha_dmy_sin_hora (z : Int) (y1 y2 y3 y4 m1 m2 d1 d2 : Nat)
    (hd : ∀ c ∈ [y1, y2, y3, y4, m1, m2, d1, d2], isDigit c = true) :
    parseFecha (hostZona z) [d1, d2, 47, m1, m2, 47, y1, y2, y3, y4]
      = dateLocalZona z (parseIntDigits [y1, y2, y3, y4]) (parseIntDigits [m1, m2] - 1)
          (parseIntDigits [d1, d2]) 0 0 := by
  have a1 := hd y1 (by simp)
  have a2 := hd y2 (by simp)
  have a3 := hd y3 (by simp)
  have a4 := hd y4 (by simp)
  have a5 := hd m1 (by simp)
  have a6 := hd m2 (by simp)
  have a7 := hd d1 (by simp)
  have a8 := hd d2 (by simp)
  have htrim : trim [d1, d2, 47, m1, m2, 47, y1, y2, y3, y4]
      = [d1, d2, 47, m1, m2, 47, y1, y2, y3, y4] :=
    trim_sin_blancos d1 y4 [d2, 47, m1, m2, 47, y1, y2, y3]
      (isWhiteSpace_of_isDigit _ a7) (isWhiteSpace_of_isDigit _ a4)
  have hiso : matchISO [d1, d2, 47, m1, m2, 47, y1, y2, y3, y4] = false := by
    simp [matchISO, digitAt, unitAt, isDigit]
  have hdmy : matchDMY [d1, d2, 47, m1, m2, 47, y1, y2, y3, y4]
      = some ([d1, d2], [m1, m2], [y1, y2, y3, y4], none) := by
    simp [matchDMY, digitAt, unitAt, a1, a2, a3, a4, a5, a6, a7, a8]
  have hparse : dateParseZona z [d1, d2, 47, m1, m2, 47, y1, y2, y3, y4] = none := by
    unfold dateParseZona
    simp [hiso]
  unfold parseFecha
  simp only [htrim, hiso, hdmy, List.isEmpty_cons, Bool.false_eq_true, if_false]
  show (match dateLocalZona z _ _ _ _ _ with
    | some d => some d
    | none => dateParseZona z _) = _
  cases hc : dateLocalZona z (parseIntDigits [y1, y2, y3, y4]) (parseIntDigits [m1, m2] - 1)
      (parseIntDigits [d1, d2]) 0 0 with
  | some d => rfl
  | none => exact hparse


theorem dateLocalZona_anio_completo (z year month day hours minutes : Int)
    (h : 100 ≤ year) :
    dateLocalZona z year month day hours minutes
      = timeClip (makeDate (makeDay year month day) (makeTime hours minutes 0 0)
          - z * 60000) := by
  unfold dateLocalZona
  simp only
  rw [if_neg (by omega)]

/-- The two formats on a host whose local time is `z` minutes ahead of UTC,
for every valid calendar date of a year from 100 on, given by its digits.
With a time `HH:MM` both formats give that date and time in local time.
Without a time the ISO form gives midnight of that date in UTC (the zone at
offset 0) and the day-first form midnight of that date in local time. -/
theorem parseFecha_formatos (z : Int) (y1 y2 y3 y4 m1 m2 d1 d2 h1 h2 n1 n2 : Nat)
    (hd : ∀ c ∈ [y1, y2, y3, y4, m1, m2, d1, d2, h1, h2, n1, n2], isDigit c = true)
    (hanio : 100 ≤ parseIntDigits [y1, y2, y3, y4])
    (hmes : 1 ≤ parseIntDigits [m1, m2] ∧ parseIntDigits [m1, m2] ≤ 12)
    (hdia : 1 ≤ parseIntDigits [d1, d2] ∧
      parseIntDigits [d1, d2] ≤ daysInMonth (parseIntDigits [y1, y2, y3, y4])
        (parseIntDigits [m1, m2]))
    (hhora : parseIntDigits [h1, h2] ≤ 23) (hmin : parseIntDigits [n1, n2] ≤ 59) :
    parseFecha (hostZona z) [y1, y2, y3, y4, 45, m1, m2, 45, d1, d2, 32, h1, h2, 58, n1, n2]
      = dateLocalZona z (parseIntDigits [y1, y2, y3, y4]) (parseIntDigits [m1, m2] - 1)
          (parseIntDigits [d1, d2]) (parseIntDigits [h1, h2]) (parseIntDigits [n1, n2]) ∧
    parseFecha (hostZona z) [d1, d2, 47, m1, m2, 47, y1, y2, y3, y4, 32, h1, h2, 58, n1, n2]
      = dateLocalZona z (parseIntDigits [y1, y2, y3, y4]) (parseIntDigits [m1, m2] - 1)
          (parseIntDigits [d1, d2]) (parseIntDigits [h1, h2]) (parseIntDigits [n1, n2]) ∧
    parseFecha (hostZona z) [y1, y2, y3, y4, 45, m1, m2, 45, d1, d2]
      = dateLocalZona 0 (parseIntDigits [y1, y2, y3, y4]) (parseIntDigits [m1, m2] - 1)
          (parseIntDigits [d1, d2]) 0 0 ∧
    parseFecha (hostZona z) [d1, d2, 47, m1, m2, 47, y1, y2, y3, y4]
      = dateLocalZona z (parseIntDigits [y1, y2, y3, y4]) (parseIntDigits [m1, m2] - 1)
          (parseIntDigits [d1, d2]) 0 0 := by
  have hd8 : ∀ c ∈ [y1, y2, y3, y4, m1, m2, d1, d2], isDigit c = true := by
    intro c hc
    apply hd c
    simp only [List.mem_cons, List.mem_singleton, List.not_mem_nil, or_false] at hc ⊢
    rcases hc with h | h | h | h | h | h | h | h <;> simp [h]
  refine ⟨?_, parseFecha_dmy_con_hora z y1 y2 y3 y4 m1 m2 d1 d2 h1 h2 n1 n2 hd, ?_,
    parseFecha_dmy_sin_hora z y1 y2 y3 y4 m1 m2 d1 d2 hd8⟩
  · rw [parseFecha_iso_con_hora z y1 y2 y3 y4 m1 m2 d1 d2 h1 h2 n1 n2 hd hmes hdia hhora hmin,
      dateLocalZona_anio_completo _ _ _ _ _ _ hanio]
  · rw [parseFecha_iso_sin_hora z y1 y2 y3 y4 m1 m2 d1 d2 hd8 hmes hdia,
      dateLocalZona_anio_completo _ _ _ _ _ _ hanio]
    have h0 : makeTime 0 0 0 0 = 0 := rfl
    rw [h0, zero_mul, sub_zero]

/-- The two formats at 1 December 2025, 18:00, three hours behind UTC. -/
theorem parseFecha_formatos_witness :
    parseFecha (hostZona (-180)) (js "2025-12-01 18:00")
      = parseFecha (hostZona (-180)) (js "01/12/2025 18:00") ∧
    parseFecha (hostZona (-180)) (js "2025-12-01") = dateLocalZona 0 2025 11 1 0 0 ∧
    parseFecha (hostZona (-180)) (js "01/12/2025") = dateLocalZona (-180) 2025 11 1 0 0 :=
  have h := parseFecha_formatos (-180) 50 48 50 53 49 50 48 49 49 56 48 48
    (by decide) (by decide) (by decide) (by decide) (by decide) (by decide)
  ⟨h.1.trans h.2.1.symm, h.2.2.1, h.2.2.2⟩

/-- The day-first form reads a year from 0 to 99 as 1900 + year, the ISO form
as written: the two forms of 1 December of year 50 are 1900 years apart, in
UTC as in any zone. -/
theorem parseFecha_anio_de_dos_cifras :
    parseFecha (hostZona 0) (js "0050-12-01") = some (-60560438400000) ∧
    parseFecha (hostZona 0) (js "01/12/0050") = some (-602294400000) := by
  decide

end PersistenciaJson
